import Mathlib

/-!
Verification of the Sui language implementation (lexer, parser, tree-walking
interpreter, step debugger, Python-to-Sui transpiler) against its
natural-language specification.

The definitions below are a shallow embedding of the Rust sources:
  * `src/interpreter/value.rs`   -> `Value` and its operations
  * `src/interpreter/lexer.rs`   -> `Lexer.*`
  * `src/interpreter/parser.rs`  -> `Parser.*`, `ParseError`
  * `src/interpreter/runtime.rs` -> `Context`, `InterpState`, `execInstr`,
                                    `execBlockLoop`, `execBlock`, `Interpreter.run`
  * `src/debugger/mod.rs`        -> `Debugger.*`
  * `src/transpiler/py2sui.rs`   -> `Py2Sui.closeBlocks`

Modelling conventions:
  * Rust `HashMap` / `HashSet` are modelled by association lists (`alist`)
    with in-place-replacing insert; only `insert`/`get`/`get_mut`/`contains`
    are used by the sources, so lookup behaviour is preserved exactly
    (later inserts to the same key overwrite earlier ones).
  * `f64` is abstracted by a `FloatModel` parameter carrying the carrier
    type and every float operation the sources use.  All claims under
    verification are float-independent, so theorems quantify over all
    models; concrete witnesses use the trivial model `unitFloat`.
  * `i64` arithmetic is modelled on `Int`.  No claim exercises wrap-around
    of `+`/`-`/`*` (which would panic in a debug build); the `i64` range
    check of `str::parse::<i64>` IS modelled (`parseI64`), because parsing
    fidelity decides which `ParsedValue` variant a token becomes.
  * Ambient effects are made explicit state: stdout appends to the `output`
    log only (the source pushes to the log and prints the same string);
    stdin is a list of lines; the system clock read by the `randint`
    builtin is a list of `i64` nanosecond readings consumed one per call.
  * The interpreter's `while` loops and recursive calls need not terminate,
    so execution is fuel-indexed: `none` means the fuel ran out (the Rust
    program would still be running), `some r` is the result the Rust code
    returns.
-/

/-! ## Association-list maps (model of HashMap / HashSet) -/

/-- Lookup: first binding of the key wins (the insert below keeps keys unique). -/
def alist.get {α β : Type} [DecidableEq α] : List (α × β) → α → Option β
  | [], _ => none
  | (k, v) :: rest, k' => if k' = k then some v else alist.get rest k'

/-- Insert replacing the existing binding of the key, if any. -/
def alist.insert {α β : Type} [DecidableEq α] : List (α × β) → α → β → List (α × β)
  | [], k, v => [(k, v)]
  | (k', v') :: rest, k, v =>
    if k = k' then (k, v) :: rest else (k', v') :: alist.insert rest k v

theorem alist.get_insert {α β : Type} [DecidableEq α] (l : List (α × β)) (k : α) (v : β)
    (k' : α) :
    alist.get (alist.insert l k v) k' = if k' = k then some v else alist.get l k' := by
  induction l with
  | nil => simp [alist.insert, alist.get]
  | cons hd tl ih =>
    obtain ⟨k0, v0⟩ := hd
    by_cases h1 : k = k0
    · subst h1
      by_cases h2 : k' = k <;> simp [alist.insert, alist.get, h2]
    · by_cases h2 : k' = k0
      · subst h2
        have : ¬ k' = k := fun h => h1 (h ▸ rfl)
        simp [alist.insert, alist.get, h1, this]
      · simp [alist.insert, alist.get, h1, h2, ih]

/-! ## The float model: everything the sources do with `f64`, abstracted. -/

/-- All `f64` operations used by the embedded sources.  A model supplies a
carrier type and one function per operation; the IEEE-754 semantics itself is
out of scope (no claim depends on it). -/
structure FloatModel where
  F : Type
  /-- `x == 0.0` (used by truthiness and the zero-divisor checks). -/
  fisZero : F → Bool
  /-- `x as i64`. -/
  ftoInt : F → Int
  /-- `n as f64` (also used for `usize as f64` on array lengths). -/
  ofInt : Int → F
  /-- `s.parse::<f64>()`. -/
  fparse : String → Option F
  fadd : F → F → F
  fsub : F → F → F
  fmul : F → F → F
  fdivOp : F → F → F
  fmodOp : F → F → F
  fnan : F
  flt : F → F → Bool
  fgt : F → F → Bool
  /-- exact `==` on floats (the mixed-type fallback of `eq_val`). -/
  feq : F → F → Bool
  fabs : F → F
  /-- `f64::EPSILON`. -/
  fepsilon : F
  /-- the `Display` rendering of a float (`"N.0"` when fract is zero). -/
  fdisplay : F → String
  /-- `x.fract() == 0.0`. -/
  ffractZero : F → Bool
  fsqrt : F → F
  fpow : F → F → F
  fsin : F → F
  fcos : F → F
  ftan : F → F
  ffloor : F → F
  fceil : F → F
  fround : F → F
  fln : F → F
  flog10 : F → F
  fexp : F → F
  /-- `10_f64.powi(d)` is `fpowi (ofInt 10) d`. -/
  fpowi : F → Int → F

/-- The trivial model: a one-value float carrier.  Programs that never build
a float value behave identically under every model, so witnesses use this. -/
def unitFloat : FloatModel where
  F := Unit
  fisZero _ := true
  ftoInt _ := 0
  ofInt _ := ()
  fparse _ := none
  fadd _ _ := ()
  fsub _ _ := ()
  fmul _ _ := ()
  fdivOp _ _ := ()
  fmodOp _ _ := ()
  fnan := ()
  flt _ _ := false
  fgt _ _ := false
  feq _ _ := true
  fabs _ := ()
  fepsilon := ()
  fdisplay _ := "0.0"
  ffractZero _ := true
  fsqrt _ := ()
  fpow _ _ := ()
  fsin _ := ()
  fcos _ := ()
  ftan _ := ()
  ffloor _ := ()
  fceil _ := ()
  fround _ := ()
  fln _ := ()
  flog10 _ := ()
  fexp _ := ()
  fpowi _ _ := ()

/-! ## `i64` parsing (`str::parse::<i64>`) -/

/-- `str::parse::<i64>`: optional sign, one or more ASCII digits, and the
value must fit in `i64` (out-of-range input is an `Err`, which the sources
turn into a fallback). -/
def parseI64 (s : String) : Option Int :=
  let core : List Char → Option Int := fun digits =>
    if digits = [] then none
    else if digits.all Char.isDigit then
      some (digits.foldl (fun a c => a * 10 + ((c.toNat : Int) - 48)) 0)
    else none
  let signed : Option Int :=
    match s.data with
    | [] => none
    | c :: rest =>
      if c = '-' then (core rest).map (fun n => -n)
      else if c = '+' then core rest
      else core s.data
  match signed with
  | none => none
  | some v => if -(2 ^ 63) ≤ v ∧ v ≤ 2 ^ 63 - 1 then some v else none

/-! ## Values (`src/interpreter/value.rs`) -/

/-- The Sui runtime value (`enum Value`). -/
inductive Value (F : Type) where
  | integer (n : Int)
  | float (f : F)
  | str (s : String)
  | array (elems : List (Value F))
  | null

instance {F : Type} : Inhabited (Value F) := ⟨Value.integer 0⟩

/-- `Value::is_truthy`. -/
def Value.isTruthy (M : FloatModel) : Value M.F → Bool
  | .integer n => n ≠ 0
  | .float f => ! M.fisZero f
  | .str s => s ≠ ""
  | .array a => ! a.isEmpty
  | .null => false

/-- `Value::to_int`. -/
def Value.toInt (M : FloatModel) : Value M.F → Int
  | .integer n => n
  | .float f => M.ftoInt f
  | .str s => (parseI64 s).getD 0
  | .array a => a.length
  | .null => 0

/-- `Value::to_float`. -/
def Value.toFloat (M : FloatModel) : Value M.F → M.F
  | .integer n => M.ofInt n
  | .float f => f
  | .str s => (M.fparse s).getD (M.ofInt 0)
  | .array a => M.ofInt a.length
  | .null => M.ofInt 0

/-- `Value::add`. -/
def Value.add (M : FloatModel) : Value M.F → Value M.F → Value M.F
  | .integer a, .integer b => .integer (a + b)
  | .float a, .float b => .float (M.fadd a b)
  | .integer a, .float b => .float (M.fadd (M.ofInt a) b)
  | .float a, .integer b => .float (M.fadd a (M.ofInt b))
  | .str a, .str b => .str (a ++ b)
  | a, b => .float (M.fadd (a.toFloat M) (b.toFloat M))

/-- `Value::sub`. -/
def Value.sub (M : FloatModel) : Value M.F → Value M.F → Value M.F
  | .integer a, .integer b => .integer (a - b)
  | .float a, .float b => .float (M.fsub a b)
  | .integer a, .float b => .float (M.fsub (M.ofInt a) b)
  | .float a, .integer b => .float (M.fsub a (M.ofInt b))
  | a, b => .float (M.fsub (a.toFloat M) (b.toFloat M))

/-- `Value::mul`. -/
def Value.mul (M : FloatModel) : Value M.F → Value M.F → Value M.F
  | .integer a, .integer b => .integer (a * b)
  | .float a, .float b => .float (M.fmul a b)
  | .integer a, .float b => .float (M.fmul (M.ofInt a) b)
  | .float a, .integer b => .float (M.fmul a (M.ofInt b))
  | a, b => .float (M.fmul (a.toFloat M) (b.toFloat M))

/-- `Value::div` (always Float; zero divisor yields NaN). -/
def Value.div (M : FloatModel) (a b : Value M.F) : Value M.F :=
  let divisor := b.toFloat M
  if M.fisZero divisor then .float M.fnan
  else .float (M.fdivOp (a.toFloat M) divisor)

/-- `Value::modulo` (`%` on `i64` is the truncated remainder, `Int.tmod`). -/
def Value.modulo (M : FloatModel) : Value M.F → Value M.F → Value M.F
  | .integer a, .integer b =>
    if b ≠ 0 then .integer (Int.tmod a b)
    else
      let divisor := (Value.integer (F := M.F) b).toFloat M
      if M.fisZero divisor then .float M.fnan
      else .float (M.fmodOp ((Value.integer (F := M.F) a).toFloat M) divisor)
  | a, b =>
    let divisor := b.toFloat M
    if M.fisZero divisor then .float M.fnan
    else .float (M.fmodOp (a.toFloat M) divisor)

/-- `Value::lt`. -/
def Value.ltv (M : FloatModel) (a b : Value M.F) : Value M.F :=
  let result : Bool :=
    match a, b with
    | .integer x, .integer y => x < y
    | .str x, .str y => x < y
    | _, _ => M.flt (a.toFloat M) (b.toFloat M)
  .integer (if result then 1 else 0)

/-- `Value::gt`. -/
def Value.gtv (M : FloatModel) (a b : Value M.F) : Value M.F :=
  let result : Bool :=
    match a, b with
    | .integer x, .integer y => x > y
    | .str x, .str y => x > y
    | _, _ => M.fgt (a.toFloat M) (b.toFloat M)
  .integer (if result then 1 else 0)

/-- `Value::eq_val`. -/
def Value.eqVal (M : FloatModel) (a b : Value M.F) : Value M.F :=
  let result : Bool :=
    match a, b with
    | .integer x, .integer y => x = y
    | .float x, .float y => M.flt (M.fabs (M.fsub x y)) M.fepsilon
    | .str x, .str y => x = y
    | .null, .null => true
    | _, _ => M.feq (a.toFloat M) (b.toFloat M)
  .integer (if result then 1 else 0)

mutual
/-- `impl Display for Value`. -/
def Value.display (M : FloatModel) : Value M.F → String
  | .integer n => toString n
  | .float f => M.fdisplay f
  | .str s => s
  | .array a => "[" ++ Value.displayList M a ++ "]"
  | .null => "null"
/-- The comma-separated element rendering inside `[...]`. -/
def Value.displayList (M : FloatModel) : List (Value M.F) → String
  | [] => ""
  | [v] => Value.display M v
  | v :: rest => Value.display M v ++ ", " ++ Value.displayList M rest
end

/-! ## Lexer (`src/interpreter/lexer.rs`) -/

namespace Lexer

mutual
/-- The per-character scan of `Lexer::tokenize_line`: skip whitespace, stop at
a line comment `;`, start a string token at `"`, otherwise scan a word. -/
def tokMain : List Char → List String
  | [] => []
  | c :: rest =>
    if c.isWhitespace then tokMain rest
    else if c = ';' then []
    else if c = '"' then tokStr rest ['"']
    else tokWord rest [c]
/-- Inside a string literal: a backslash consumes the next character,
an unescaped `"` closes the token (kept with its quotes), end of line
leaves the token unterminated, exactly as the index loop in the source. -/
def tokStr : List Char → List Char → List String
  | [], acc => [String.mk acc.reverse]
  | '"' :: rest, acc => String.mk ('"' :: acc).reverse :: tokMain rest
  | '\\' :: c2 :: rest, acc => tokStr rest (c2 :: '\\' :: acc)
  | c :: rest, acc => tokStr rest (c :: acc)
/-- A regular token: maximal run of non-whitespace characters. -/
def tokWord : List Char → List Char → List String
  | [], acc => [String.mk acc.reverse]
  | c :: rest, acc =>
    if c.isWhitespace then String.mk acc.reverse :: tokMain rest
    else tokWord rest (c :: acc)
end

/-- `Lexer::tokenize_line`. -/
def tokenizeLine (line : String) : List String :=
  tokMain line.data

/-- One step of splitting on `'\n'` (`str::lines`), accumulating the current
line in reverse. -/
def splitNl : List Char → List Char → List String
  | [], acc => [String.mk acc.reverse]
  | '\n' :: rest, acc => String.mk acc.reverse :: splitNl rest []
  | c :: rest, acc => splitNl rest (c :: acc)

/-- Remove one trailing `'\r'` (`str::lines` strips it). -/
def stripCr (s : String) : String :=
  match s.data.reverse with
  | '\r' :: rest => String.mk rest.reverse
  | _ => s

/-- `str::lines`: empty input gives no lines, a trailing newline does not
produce a final empty line, and each line loses one trailing `'\r'`. -/
def rustLines (s : String) : List String :=
  if s = "" then []
  else
    let parts := splitNl s.data []
    let parts := if s.data.getLast? = some '\n' then parts.dropLast else parts
    parts.map stripCr

/-- `Lexer::parse`: tokenize every line and drop the empty token lines. -/
def parse (code : String) : List (List String) :=
  ((rustLines code).map tokenizeLine).filter (fun tokens => ! tokens.isEmpty)

/-- `Lexer::unescape_string`. -/
def unescapeString : List Char → List Char
  | [] => []
  | '\\' :: c2 :: rest =>
    (match c2 with
     | 'n' => ['\n']
     | 't' => ['\t']
     | 'r' => ['\r']
     | '\\' => ['\\']
     | '"' => ['"']
     | _ => ['\\', c2]) ++ unescapeString rest
  | c :: rest => c :: unescapeString rest

/-- `enum ParsedValue`. -/
inductive ParsedValue (F : Type) where
  | Variable (s : String)
  | integer (n : Int)
  | float (f : F)
  | str (s : String)

/-- `Lexer::parse_value`: variable reference, quoted string literal, float
(only when the token contains `'.'`), integer, or fallback raw string. -/
def parseValue (M : FloatModel) (val : String) : ParsedValue M.F :=
  if (val.data.headD ' ' = 'v' ∨ val.data.headD ' ' = 'g' ∨ val.data.headD ' ' = 'a')
      ∧ val.data.length > 1 ∧ val.data.tail.all Char.isDigit then
    .Variable val
  else if val.data.headD ' ' = '"' ∧ val.data.getLast? = some '"' ∧ val.data.length ≥ 2 then
    .str (String.mk (unescapeString (val.data.tail.dropLast)))
  else
    match (if val.data.contains '.' then M.fparse val else none) with
    | some f => .float f
    | none =>
      match parseI64 val with
      | some n => .integer n
      | none => .str val

end Lexer


/-! ## Instructions and parse errors (`src/interpreter/mod.rs`, `parser.rs`) -/

/-- `enum Instruction`.  The `Import` variant is constructed by
`Parser::parse_line` for the `_` opcode (the enum listing in `mod.rs` in the
tree omits it; the parser and debugger both use it, and it is a no-op at
execution). -/
inductive Instruction where
  | assign (target value : String)
  | add (result a b : String)
  | sub (result a b : String)
  | mul (result a b : String)
  | div (result a b : String)
  | mod (result a b : String)
  | lt (result a b : String)
  | gt (result a b : String)
  | eq (result a b : String)
  | not (result a : String)
  | and (result a b : String)
  | or (result a b : String)
  | condJump (cond : String) (label : Int)
  | jump (label : Int)
  | label (id : Int)
  | funcDef (id argc : Int)
  | funcEnd
  | call (result : String) (funcId : Int) (args : List String)
  | ret (value : String)
  | arrayCreate (var size : String)
  | arrayRead (result arr idx : String)
  | arrayWrite (arr idx value : String)
  | output (value : String)
  | input (var : String)
  | rustFFI (result func : String) (args : List String)
  | imp (path : String)
  | comment
  | empty
deriving DecidableEq

/-- `struct Function`. -/
structure Function where
  id : Int
  argCount : Int
  body : List Instruction
deriving DecidableEq

/-- `enum ParseError`. -/
inductive ParseError where
  | invalidInstruction (op : String) (line : Nat)
  | missingArguments (op : String) (line : Nat) (expected got : Nat)
  | invalidFunctionDef (line : Nat)
  | unmatchedBrace (line : Nat)
  | general (line : Nat) (msg : String)
deriving DecidableEq

/-- The 1-based line number carried by a `ParseError`. -/
def ParseError.line : ParseError → Nat
  | .invalidInstruction _ n => n
  | .missingArguments _ n _ _ => n
  | .invalidFunctionDef n => n
  | .unmatchedBrace n => n
  | .general n _ => n

namespace Parser

/-- `Parser::check_args`. -/
def checkArgs (op : String) (args : List String) (min lineNum : Nat) :
    Except ParseError Unit :=
  if args.length < min then
    .error (.missingArguments op lineNum min args.length)
  else
    .ok ()

/-- `Parser::parse_line`. -/
def parseLine (tokens : List String) (lineNum : Nat) : Except ParseError Instruction :=
  match tokens with
  | [] => .ok .empty
  | op :: args =>
    match op with
    | ";" => .ok .comment
    | "_" =>
      match checkArgs op args 1 lineNum with
      | .error e => .error e
      | .ok _ =>
        -- `trim_matches('"')` strips all leading and trailing quotes
        let path := String.mk (((args.headD "").data.dropWhile (fun c => c = '"')).reverse.dropWhile
          (fun c => c = '"')).reverse
        .ok (.imp path)
    | "=" =>
      match checkArgs op args 2 lineNum with
      | .error e => .error e
      | .ok _ =>
        .ok (.assign (args.headD "") (args.getD 1 ""))
    | "+" =>
      match checkArgs op args 3 lineNum with
      | .error e => .error e
      | .ok _ =>
        .ok (.add (args.headD "") (args.getD 1 "") (args.getD 2 ""))
    | "-" =>
      match checkArgs op args 3 lineNum with
      | .error e => .error e
      | .ok _ =>
        .ok (.sub (args.headD "") (args.getD 1 "") (args.getD 2 ""))
    | "*" =>
      match checkArgs op args 3 lineNum with
      | .error e => .error e
      | .ok _ =>
        .ok (.mul (args.headD "") (args.getD 1 "") (args.getD 2 ""))
    | "/" =>
      match checkArgs op args 3 lineNum with
      | .error e => .error e
      | .ok _ =>
        .ok (.div (args.headD "") (args.getD 1 "") (args.getD 2 ""))
    | "%" =>
      match checkArgs op args 3 lineNum with
      | .error e => .error e
      | .ok _ =>
        .ok (.mod (args.headD "") (args.getD 1 "") (args.getD 2 ""))
    | "<" =>
      match checkArgs op args 3 lineNum with
      | .error e => .error e
      | .ok _ =>
        .ok (.lt (args.headD "") (args.getD 1 "") (args.getD 2 ""))
    | ">" =>
      match checkArgs op args 3 lineNum with
      | .error e => .error e
      | .ok _ =>
        .ok (.gt (args.headD "") (args.getD 1 "") (args.getD 2 ""))
    | "~" =>
      match checkArgs op args 3 lineNum with
      | .error e => .error e
      | .ok _ =>
        .ok (.eq (args.headD "") (args.getD 1 "") (args.getD 2 ""))
    | "!" =>
      match checkArgs op args 2 lineNum with
      | .error e => .error e
      | .ok _ =>
        .ok (.not (args.headD "") (args.getD 1 ""))
    | "&" =>
      match checkArgs op args 3 lineNum with
      | .error e => .error e
      | .ok _ =>
        .ok (.and (args.headD "") (args.getD 1 "") (args.getD 2 ""))
    | "|" =>
      match checkArgs op args 3 lineNum with
      | .error e => .error e
      | .ok _ =>
        .ok (.or (args.headD "") (args.getD 1 "") (args.getD 2 ""))
    | "?" =>
      match checkArgs op args 2 lineNum with
      | .error e => .error e
      | .ok _ =>
        match parseI64 (args.getD 1 "") with
        | none => .error (.general lineNum ("Invalid label: " ++ args.getD 1 ""))
        | some label => .ok (.condJump (args.headD "") label)
    | "@" =>
      match checkArgs op args 1 lineNum with
      | .error e => .error e
      | .ok _ =>
        match parseI64 (args.headD "") with
        | none => .error (.general lineNum ("Invalid label: " ++ args.headD ""))
        | some label => .ok (.jump label)
    | ":" =>
      match checkArgs op args 1 lineNum with
      | .error e => .error e
      | .ok _ =>
        match parseI64 (args.headD "") with
        | none => .error (.general lineNum ("Invalid label: " ++ args.headD ""))
        | some id => .ok (.label id)
    | "#" =>
      if args.length < 3 ∨ args.getLast? ≠ some "\x7b" then
        .error (.invalidFunctionDef lineNum)
      else
        match parseI64 (args.headD "") with
        | none => .error (.general lineNum ("Invalid function id: " ++ args.headD ""))
        | some id =>
          match parseI64 (args.getD 1 "") with
          | none => .error (.general lineNum ("Invalid argc: " ++ args.getD 1 ""))
          | some argc => .ok (.funcDef id argc)
    | "\x7d" => .ok .funcEnd
    | "$" =>
      match checkArgs op args 2 lineNum with
      | .error e => .error e
      | .ok _ =>
        match parseI64 (args.getD 1 "") with
        | none => .error (.general lineNum ("Invalid function id: " ++ args.getD 1 ""))
        | some funcId => .ok (.call (args.headD "") funcId (args.drop 2))
    | "^" =>
      match checkArgs op args 1 lineNum with
      | .error e => .error e
      | .ok _ =>
        .ok (.ret (args.headD ""))
    | "[" =>
      match checkArgs op args 2 lineNum with
      | .error e => .error e
      | .ok _ =>
        .ok (.arrayCreate (args.headD "") (args.getD 1 ""))
    | "]" =>
      match checkArgs op args 3 lineNum with
      | .error e => .error e
      | .ok _ =>
        .ok (.arrayRead (args.headD "") (args.getD 1 "") (args.getD 2 ""))
    | "\x7b" =>
      -- with three or more operands this is an array write, otherwise a no-op
      if args.length ≥ 3 then
        .ok (.arrayWrite (args.headD "") (args.getD 1 "") (args.getD 2 ""))
      else
        .ok .empty
    | "." =>
      match checkArgs op args 1 lineNum with
      | .error e => .error e
      | .ok _ =>
        .ok (.output (args.headD ""))
    | "," =>
      match checkArgs op args 1 lineNum with
      | .error e => .error e
      | .ok _ =>
        .ok (.input (args.headD ""))
    | "R" =>
      match checkArgs op args 2 lineNum with
      | .error e => .error e
      | .ok _ =>
        .ok (.rustFFI (args.headD "") (args.getD 1 "") (args.drop 2))
    | "P" =>
      match checkArgs op args 2 lineNum with
      | .error e => .error e
      | .ok _ =>
        .ok (.rustFFI (args.headD "") (args.getD 1 "") (args.drop 2))
    | _ => .error (.invalidInstruction op lineNum)

/-- The brace-depth update of the body-collection loop: `#` increments,
`}` decrements, everything else leaves the depth unchanged. -/
def braceStep (instr : Instruction) (depth : Nat) : Nat :=
  match instr with
  | .funcDef _ _ => depth + 1
  | .funcEnd => depth - 1
  | _ => depth

/-- Whether the body-collection loop keeps the instruction in the body: the
`}` that brings the depth to zero is dropped, everything else is kept. -/
def bracePush (instr : Instruction) (newDepth : Nat) : Bool :=
  match instr with
  | .funcEnd => decide (0 < newDepth)
  | _ => true

/-- The inner body-collection loop of `Parser::parse`: consume token lines
while the brace depth is positive, nesting `#`/`}` and keeping the final `}`
out of the body.  Returns the collected body, the unconsumed lines, and the
updated line counter. -/
def collectBody : List (List String) → Nat → Nat →
    Except ParseError (List Instruction × List (List String) × Nat)
  | tls, lineNum, depth =>
    if depth = 0 then .ok ([], tls, lineNum)
    else
      match tls with
      | [] => .error (.unmatchedBrace lineNum)
      | tokens :: rest =>
        match parseLine tokens lineNum with
        | .error e => .error e
        | .ok instr =>
          match collectBody rest (lineNum + 1) (braceStep instr depth) with
          | .error e => .error e
          | .ok (body, r, ln) =>
            .ok ((if bracePush instr (braceStep instr depth) then instr :: body else body),
              r, ln)

/-- `collectBody` only consumes lines: what it returns is a suffix of its
input, and the line counter advances by exactly the number of consumed lines. -/
theorem collectBody_suffix :
    ∀ (tls : List (List String)) (lineNum depth : Nat) body r ln,
    collectBody tls lineNum depth = .ok (body, r, ln) →
    ∃ k, k ≤ tls.length ∧ r = tls.drop k ∧ ln = lineNum + k := by
  intro tls
  induction tls with
  | nil =>
    intro lineNum depth body r ln h
    rw [collectBody] at h
    by_cases hd : depth = 0
    · simp [hd] at h
      exact ⟨0, by simp, by simp [h.2.1], by simp [h.2.2]⟩
    · simp [hd] at h
  | cons tokens rest ih =>
    intro lineNum depth body r ln h
    rw [collectBody] at h
    by_cases hd : depth = 0
    · simp [hd] at h
      exact ⟨0, by simp, by simp [h.2.1], by simp [h.2.2]⟩
    · simp only [if_neg hd] at h
      cases hpl : parseLine tokens lineNum with
      | error e => rw [hpl] at h; exact absurd h (by simp)
      | ok instr =>
        rw [hpl] at h
        simp only at h
        cases hcb : collectBody rest (lineNum + 1) (braceStep instr depth) with
        | error e => rw [hcb] at h; exact absurd h (by simp)
        | ok res =>
          obtain ⟨body', r', ln'⟩ := res
          rw [hcb] at h
          simp only [Except.ok.injEq, Prod.mk.injEq] at h
          obtain ⟨-, hr, hln⟩ := h
          obtain ⟨k, hk, hrk, hlnk⟩ := ih (lineNum + 1) _ body' r' ln' hcb
          subst hr hln hrk hlnk
          exact ⟨k + 1, by simpa using Nat.succ_le_succ hk, by simp, by omega⟩

/-- The top-level loop of `Parser::parse`, fuelled by the number of remaining
token lines (each step consumes at least one line, so `tls.length` is enough
fuel; the fuel-exhaustion branch is unreachable from `Parser.parse`). -/
def parseLoop : Nat → List (List String) → Nat →
    Except ParseError (List Instruction × List Function)
  | _, [], _ => .ok ([], [])
  | 0, _ :: _, _ => .ok ([], [])
  | fuel + 1, tokens :: rest, lineNum =>
    match parseLine tokens lineNum with
    | .error e => .error e
    | .ok instr =>
      match instr with
      | .funcDef id argc =>
        match collectBody rest (lineNum + 1) 1 with
        | .error e => .error e
        | .ok (body, r, ln) =>
          match parseLoop fuel r ln with
          | .error e => .error e
          | .ok (instrs, funcs) =>
            .ok (instrs, ⟨id, argc, body⟩ :: funcs)
      | .funcEnd =>
        parseLoop fuel rest (lineNum + 1)
      | _ =>
        match parseLoop fuel rest (lineNum + 1) with
        | .error e => .error e
        | .ok (instrs, funcs) => .ok (instr :: instrs, funcs)

/-- `Parser::parse`. -/
def parse (code : String) : Except ParseError (List Instruction × List Function) :=
  let tls := Lexer.parse code
  parseLoop tls.length tls 1

/-- The enumerated per-line loop of `Parser::validate` (index starts at `i`,
reported lines are `i + 1`-based). -/
def validateLoop : List (List String) → Nat → List ParseError
  | [], _ => []
  | tokens :: rest, i =>
    match parseLine tokens i.succ with
    | .error e => e :: validateLoop rest (i + 1)
    | .ok _ => validateLoop rest (i + 1)

/-- `Parser::validate`. -/
def validate (code : String) : List ParseError :=
  validateLoop (Lexer.parse code) 0

end Parser


/-! ## Interpreter runtime (`src/interpreter/runtime.rs`) -/

/-- `enum InterpreterError`, restricted to the variants the embedded fragment
can construct (`runtime.rs` only ever builds `Parse`, `UndefinedFunction` and
`StackOverflow`; `Io` cannot occur because the modelled streams do not fail,
and the remaining variants are never constructed). -/
inductive InterpreterError where
  | parse (e : ParseError)
  | undefinedFunction (id : Int)
  | stackOverflow
deriving DecidableEq

/-- `struct Context`: one call frame. -/
structure Context (F : Type) where
  localVars : List (Int × Value F)
  args : List (Value F)
  returnValue : Value F
  returned : Bool

/-- `Context::default()`. -/
def Context.init (F : Type) : Context F :=
  { localVars := [], args := [], returnValue := .integer 0, returned := false }

/-- The interpreter state (`struct Interpreter` minus the unused `debug`
flag, plus the explicit ambient streams: `stdin` lines and the `clock`
of nanosecond readings consumed by `randint`). -/
structure InterpState (F : Type) where
  globalVars : List (Int × Value F)
  functions : List (Int × Function)
  contextStack : List (Context F)
  context : Context F
  output : List String
  maxStackDepth : Nat
  stdin : List String
  clock : List Int

/-- Variable-reference decoding shared by `resolve`/`assign`/array writes:
first character selects the namespace (`unwrap_or('v')` in `assign`), the
rest parses as `i64` with fallback 0. -/
def varIndex (var : String) : Int :=
  (parseI64 (String.mk var.data.tail)).getD 0

/-- `Interpreter::resolve`. -/
def resolve (M : FloatModel) (s : InterpState M.F) (val : String) : Value M.F :=
  match Lexer.parseValue M val with
  | .Variable var =>
    let idx := varIndex var
    match var.data.headD 'v' with
    | 'v' => (alist.get s.context.localVars idx).getD default
    | 'g' => (alist.get s.globalVars idx).getD default
    | 'a' =>
      -- `args.get(idx as usize)`: a negative i64 casts to a huge usize,
      -- so the lookup is out of range and yields the default
      (if 0 ≤ idx then s.context.args.get? idx.toNat else none).getD default
    | _ => default
  | .integer n => .integer n
  | .float f => .float f
  | .str s2 => .str s2

/-- `Interpreter::assign`. -/
def assign (M : FloatModel) (s : InterpState M.F) (var : String) (value : Value M.F) :
    InterpState M.F :=
  let idx := varIndex var
  match var.data.headD 'v' with
  | 'v' => { s with context := { s.context with
               localVars := alist.insert s.context.localVars idx value } }
  | 'g' => { s with globalVars := alist.insert s.globalVars idx value }
  | _ => s

/-- `func_name.split('.').last()`: a kernel-computable splitter with the
same behaviour as splitting on the single-character dot separator. -/
def splitDotAux : List Char → List Char → List String
  | [], acc => [String.mk acc.reverse]
  | c :: rest, acc =>
    if c = '.' then String.mk acc.reverse :: splitDotAux rest []
    else splitDotAux rest (c :: acc)

def splitDot (s : String) : List String :=
  splitDotAux s.data []

/-- `Interpreter::call_builtin`.  Takes and returns the clock stream: only
the `randint` arm reads the system time (one reading per call). -/
def callBuiltin (M : FloatModel) (clock : List Int) (func : String)
    (args : List (Value M.F)) : Value M.F × List Int :=
  let funcName := ((splitDot func).getLast?).getD func
  let arg0f : M.F := ((args.get? 0).map (Value.toFloat M)).getD (M.ofInt 0)
  match funcName with
  | "sqrt" => (.float (M.fsqrt arg0f), clock)
  | "pow" =>
    let exp := ((args.get? 1).map (Value.toFloat M)).getD (M.ofInt 0)
    (.float (M.fpow arg0f exp), clock)
  | "sin" => (.float (M.fsin arg0f), clock)
  | "cos" => (.float (M.fcos arg0f), clock)
  | "tan" => (.float (M.ftan arg0f), clock)
  | "floor" => (.integer (M.ftoInt (M.ffloor arg0f)), clock)
  | "ceil" => (.integer (M.ftoInt (M.fceil arg0f)), clock)
  | "round" =>
    if args.length ≥ 2 then
      -- `to_int() as i32` on the decimals argument; `i32` wrap-around of a
      -- decimals count is not exercised and not modelled
      let decimals := (args.getD 1 default).toInt M
      let factor := M.fpowi (M.ofInt 10) decimals
      (.float (M.fdivOp (M.fround (M.fmul arg0f factor)) factor), clock)
    else (.integer (M.ftoInt (M.fround arg0f)), clock)
  | "abs" =>
    if M.ffractZero arg0f then (.integer (M.ftoInt (M.fabs arg0f)), clock)
    else (.float (M.fabs arg0f), clock)
  | "log" => (.float (M.fln arg0f), clock)
  | "log10" => (.float (M.flog10 arg0f), clock)
  | "exp" => (.float (M.fexp arg0f), clock)
  | "max" =>
    match args with
    | [] => (.integer 0, clock)
    | first :: rest =>
      let m := rest.foldl
        (fun acc arg => let v := arg.toFloat M; if M.fgt v acc then v else acc)
        (first.toFloat M)
      if M.ffractZero m then (.integer (M.ftoInt m), clock) else (.float m, clock)
  | "min" =>
    match args with
    | [] => (.integer 0, clock)
    | first :: rest =>
      let m := rest.foldl
        (fun acc arg => let v := arg.toFloat M; if M.flt v acc then v else acc)
        (first.toFloat M)
      if M.ffractZero m then (.integer (M.ftoInt m), clock) else (.float m, clock)
  | "len" =>
    match args.head? with
    | some (.str s) => (.integer s.length, clock)
    | some (.array a) => (.integer a.length, clock)
    | _ => (.integer 0, clock)
  | "int" => (.integer (((args.get? 0).map (Value.toInt M)).getD 0), clock)
  | "float" => (.float arg0f, clock)
  | "str" => (.str (((args.get? 0).map (Value.display M)).getD ""), clock)
  | "randint" =>
    let lo := ((args.get? 0).map (Value.toInt M)).getD 0
    let hi := ((args.get? 1).map (Value.toInt M)).getD 100
    -- `SystemTime::now()` nanoseconds as i64, `unwrap_or(0)` when the
    -- stream is exhausted; `seed.abs() % range` on i64
    let seed := clock.headD 0
    let range := max (hi - lo + 1) 1
    (.integer (lo + Int.tmod (Int.natAbs seed : Int) range), clock.tail)
  | _ =>
    -- unknown builtin: warning on stderr (not part of the output log), 0
    (.integer 0, clock)

/-- The label table precomputed by `Interpreter::execute_block` (later
occurrences of a label id overwrite earlier ones, as HashMap insert does). -/
def labelsOf (instructions : List Instruction) : List (Int × Nat) :=
  (instructions.enum.foldl
    (fun m p =>
      match p.2 with
      | .label id => alist.insert m id p.1
      | _ => m)
    [])

mutual
/-- `Interpreter::execute_instruction`.  The result triple is the source's
`(continue?, jump-label)` pair together with the mutated interpreter; `none`
is fuel exhaustion (only function calls consume fuel).  The `Import`
instruction is a no-op as in the debugger (see `Instruction.imp`). -/
def execInstr (M : FloatModel) :
    Nat → InterpState M.F → Instruction →
    Option (Except InterpreterError (InterpState M.F × Bool × Option Int))
  | fuel, s, instr =>
    match instr with
    | .empty => some (.ok (s, true, none))
    | .comment => some (.ok (s, true, none))
    | .funcDef _ _ => some (.ok (s, true, none))
    | .funcEnd => some (.ok (s, true, none))
    | .imp _ => some (.ok (s, true, none))
    | .assign target value => some (.ok (assign M s target (resolve M s value), true, none))
    | .add r a b =>
      some (.ok (assign M s r (Value.add M (resolve M s a) (resolve M s b)), true, none))
    | .sub r a b =>
      some (.ok (assign M s r (Value.sub M (resolve M s a) (resolve M s b)), true, none))
    | .mul r a b =>
      some (.ok (assign M s r (Value.mul M (resolve M s a) (resolve M s b)), true, none))
    | .div r a b =>
      some (.ok (assign M s r (Value.div M (resolve M s a) (resolve M s b)), true, none))
    | .mod r a b =>
      some (.ok (assign M s r (Value.modulo M (resolve M s a) (resolve M s b)), true, none))
    | .lt r a b =>
      some (.ok (assign M s r (Value.ltv M (resolve M s a) (resolve M s b)), true, none))
    | .gt r a b =>
      some (.ok (assign M s r (Value.gtv M (resolve M s a) (resolve M s b)), true, none))
    | .eq r a b =>
      some (.ok (assign M s r (Value.eqVal M (resolve M s a) (resolve M s b)), true, none))
    | .not r a =>
      let val : Value M.F :=
        if (resolve M s a).isTruthy M then .integer 0 else .integer 1
      some (.ok (assign M s r val, true, none))
    | .and r a b =>
      let val : Value M.F :=
        if (resolve M s a).isTruthy M ∧ (resolve M s b).isTruthy M
        then .integer 1 else .integer 0
      some (.ok (assign M s r val, true, none))
    | .or r a b =>
      let val : Value M.F :=
        if (resolve M s a).isTruthy M ∨ (resolve M s b).isTruthy M
        then .integer 1 else .integer 0
      some (.ok (assign M s r val, true, none))
    | .condJump cond label =>
      if (resolve M s cond).isTruthy M then some (.ok (s, true, some label))
      else some (.ok (s, true, none))
    | .jump label => some (.ok (s, true, some label))
    | .label _ => some (.ok (s, true, none))
    | .call result funcId args =>
      if s.contextStack.length ≥ s.maxStackDepth then
        some (.error .stackOverflow)
      else
        match alist.get s.functions funcId with
        | none => some (.error (.undefinedFunction funcId))
        | some func =>
          let callArgs := args.map (resolve M s)
          -- push the old context (Vec push/pop at the end is cons/head here)
          let s1 : InterpState M.F :=
            { s with
              context := { Context.init M.F with args := callArgs },
              contextStack := s.context :: s.contextStack }
          match fuel with
          | 0 => none
          | fuel + 1 =>
            -- `self.execute_block(&func.body)` (the `execBlock` wrapper below)
            match execBlockLoop M fuel s1 func.body (labelsOf func.body) 0 with
            | none => none
            | some (.error e) => some (.error e)
            | some (.ok s2) =>
              let returnVal := s2.context.returnValue
              let s3 : InterpState M.F :=
                { s2 with
                  context := s2.contextStack.headD (Context.init M.F),
                  contextStack := s2.contextStack.tail }
              some (.ok (assign M s3 result returnVal, true, none))
    | .ret value =>
      let s' : InterpState M.F :=
        { s with context := { s.context with
            returnValue := resolve M s value, returned := true } }
      some (.ok (s', false, none))
    | .arrayCreate var size =>
      -- `to_int() as usize` then `vec![Integer 0; size]`; a negative size
      -- casts to an unallocatable usize in Rust (process abort), which is
      -- outside the modelled fragment, so `Int.toNat` is used
      let size := ((resolve M s size).toInt M).toNat
      some (.ok (assign M s var (.array (List.replicate size (.integer 0))), true, none))
    | .arrayRead result arr idx =>
      let array := resolve M s arr
      let index := (resolve M s idx).toInt M
      let val : Value M.F :=
        match array with
        | .array a =>
          if 0 ≤ index ∧ index.toNat < a.length then a.getD index.toNat (.integer 0)
          else .integer 0
        | _ => .integer 0
      some (.ok (assign M s result val, true, none))
    | .arrayWrite arr idx value =>
      let index := (resolve M s idx).toInt M
      let val := resolve M s value
      let varIdx := varIndex arr
      match arr.data.headD 'v' with
      | 'v' =>
        match alist.get s.context.localVars varIdx with
        | some (.array a) =>
          if 0 ≤ index ∧ index.toNat < a.length then
            let newLocals := alist.insert s.context.localVars varIdx
              (.array (a.set index.toNat val))
            some (.ok ({ s with context := { s.context with localVars := newLocals } },
              true, none))
          else some (.ok (s, true, none))
        | _ => some (.ok (s, true, none))
      | 'g' =>
        match alist.get s.globalVars varIdx with
        | some (.array a) =>
          if 0 ≤ index ∧ index.toNat < a.length then
            let newGlobals := alist.insert s.globalVars varIdx
              (.array (a.set index.toNat val))
            some (.ok ({ s with globalVars := newGlobals }, true, none))
          else some (.ok (s, true, none))
        | _ => some (.ok (s, true, none))
      | _ => some (.ok (s, true, none))
    | .output value =>
      let out := (resolve M s value).display M
      some (.ok ({ s with output := s.output ++ [out] }, true, none))
    | .input var =>
      -- `lines().next()` is `""` at end of stream
      let line := s.stdin.headD ""
      let s' := { s with stdin := s.stdin.tail }
      let t := String.mk ((line.data.dropWhile Char.isWhitespace).reverse.dropWhile
        Char.isWhitespace).reverse
      let val : Value M.F :=
        match parseI64 t with
        | some n => .integer n
        | none =>
          match M.fparse t with
          | some f => .float f
          | none => .str t
      some (.ok (assign M s' var val, true, none))
    | .rustFFI result func args =>
      let funcName := (resolve M s func).display M
      let resolvedArgs := args.map (resolve M s)
      let (val, clock') := callBuiltin M s.clock funcName resolvedArgs
      some (.ok (assign M { s with clock := clock' } result val, true, none))

/-- The cursor loop of `Interpreter::execute_block` (one fuel per iteration):
stop at end of block or when the frame has returned; a missing jump target
just advances the cursor. -/
def execBlockLoop (M : FloatModel) :
    Nat → InterpState M.F → List Instruction → List (Int × Nat) → Nat →
    Option (Except InterpreterError (InterpState M.F))
  | 0, _, _, _, _ => none
  | fuel + 1, s, instructions, labels, i =>
    if i < instructions.length then
      if s.context.returned then some (.ok s)
      else
        match execInstr M fuel s (instructions.getD i .empty) with
        | none => none
        | some (.error e) => some (.error e)
        | some (.ok (s', cont, jumpLabel)) =>
          if cont then
            match jumpLabel with
            | some label =>
              match alist.get labels label with
              | some pos => execBlockLoop M fuel s' instructions labels pos
              | none => execBlockLoop M fuel s' instructions labels (i + 1)
            | none => execBlockLoop M fuel s' instructions labels (i + 1)
          else some (.ok s')
    else some (.ok s)
end

/-- `Interpreter::execute_block`. -/
def execBlock (M : FloatModel) (fuel : Nat) (s : InterpState M.F)
    (instructions : List Instruction) :
    Option (Except InterpreterError (InterpState M.F)) :=
  execBlockLoop M fuel s instructions (labelsOf instructions) 0

/-- How `Interpreter::run` parses one command-line argument. -/
def parseArg (M : FloatModel) (arg : String) : Value M.F :=
  match parseI64 arg with
  | some n => .integer n
  | none =>
    match M.fparse arg with
    | some f => .float f
    | none => .str arg

/-- `Interpreter::run`: reset, bind `g100`/`g101+i`, parse, register the
functions, execute the top-level block, and return the output log.
`maxStackDepth` is the interpreter's configured `max_stack_depth` (default
1000), which `reset` preserves. -/
def Interpreter.run (M : FloatModel) (fuel maxStackDepth : Nat) (code : String)
    (args : List String) (stdin : List String) (clock : List Int) :
    Option (Except InterpreterError (List String)) :=
  let g0 : List (Int × Value M.F) := alist.insert [] 100 (.integer args.length)
  let globals := args.enum.foldl
    (fun m p => alist.insert m (101 + (p.1 : Int)) (parseArg M p.2)) g0
  match Parser.parse code with
  | .error e => some (.error (.parse e))
  | .ok (instructions, functions) =>
    let funcMap := functions.foldl (fun m f => alist.insert m f.id f) []
    let s0 : InterpState M.F :=
      { globalVars := globals, functions := funcMap, contextStack := [],
        context := Context.init M.F, output := [], maxStackDepth := maxStackDepth,
        stdin := stdin, clock := clock }
    match execBlock M fuel s0 instructions with
    | none => none
    | some (.error e) => some (.error e)
    | some (.ok s) => some (.ok s.output)


/-! ## Step debugger (`src/debugger/mod.rs`) -/

namespace Debugger

/-- `enum DebugState`. -/
inductive DebugState where
  | running
  | paused
  | stepping
  | finished
deriving DecidableEq

/-- `enum DebugEvent`. -/
inductive DebugEvent where
  | breakpoint (line : Nat)
  | step
  | finished
  | error (msg : String)
deriving DecidableEq

/-- `struct StackFrame`. -/
structure StackFrame (F : Type) where
  funcId : Int
  line : Nat
  locals : List (Int × Value F)
  args : List (Value F)

/-- `struct Debugger` (the interactive command loop is out of scope; the
`stdin` list feeds `,` instructions as in the interpreter model). -/
structure Dbg (F : Type) where
  breakpoints : List Nat
  state : DebugState
  currentLine : Nat
  instructions : List (Nat × Instruction)
  functions : List (Int × Function)
  globalVars : List (Int × Value F)
  callStack : List (StackFrame F)
  currentFrame : StackFrame F
  output : List String
  labels : List (Int × Nat)
  ip : Nat
  sourceLines : List String
  stdin : List String

/-- The initial frame (`func_id: -1` marks main). -/
def StackFrame.main (F : Type) : StackFrame F :=
  { funcId := -1, line := 0, locals := [], args := [] }

/-- `Debugger::load` (on a freshly constructed debugger). -/
def load (M : FloatModel) (code : String) (stdin : List String) :
    Except ParseError (Dbg M.F) :=
  match Parser.parse code with
  | .error e => .error e
  | .ok (instructions, functions) =>
    let numbered := instructions.enum.map (fun p => (p.1 + 1, p.2))
    let labels := numbered.enum.foldl
      (fun m p =>
        match p.2.2 with
        | .label id => alist.insert m id p.1
        | _ => m)
      []
    let funcMap := functions.foldl (fun m f => alist.insert m f.id f) []
    .ok
      { breakpoints := [], state := .paused, currentLine := 0,
        instructions := numbered, functions := funcMap, globalVars := [],
        callStack := [], currentFrame := StackFrame.main M.F, output := [],
        labels := labels, ip := 0, sourceLines := Lexer.rustLines code,
        stdin := stdin }

/-- `Debugger::set_breakpoint` (HashSet insert: no duplicates). -/
def setBreakpoint (F : Type) (d : Dbg F) (line : Nat) : Dbg F :=
  if d.breakpoints.contains line then d
  else { d with breakpoints := line :: d.breakpoints }

/-- `Debugger::resolve` (same scheme as the interpreter's, against the
current frame and the debugger's globals). -/
def dresolve (M : FloatModel) (d : Dbg M.F) (val : String) : Value M.F :=
  match Lexer.parseValue M val with
  | .Variable var =>
    let idx := varIndex var
    match var.data.headD 'v' with
    | 'v' => (alist.get d.currentFrame.locals idx).getD default
    | 'g' => (alist.get d.globalVars idx).getD default
    | 'a' => (if 0 ≤ idx then d.currentFrame.args.get? idx.toNat else none).getD default
    | _ => default
  | .integer n => .integer n
  | .float f => .float f
  | .str s => .str s

/-- `Debugger::assign`. -/
def dassign (M : FloatModel) (d : Dbg M.F) (var : String) (value : Value M.F) :
    Dbg M.F :=
  let idx := varIndex var
  match var.data.headD 'v' with
  | 'v' => { d with currentFrame := { d.currentFrame with
               locals := alist.insert d.currentFrame.locals idx value } }
  | 'g' => { d with globalVars := alist.insert d.globalVars idx value }
  | _ => d

/-- `Debugger::call_builtin` (only `sqrt`, `abs` and `len` are implemented;
everything else is Integer 0). -/
def dcallBuiltin (M : FloatModel) (func : String) (args : List (Value M.F)) :
    Value M.F :=
  let funcName := ((splitDot func).getLast?).getD func
  match funcName with
  | "sqrt" => .float (M.fsqrt (((args.get? 0).map (Value.toFloat M)).getD (M.ofInt 0)))
  | "abs" =>
    let x := ((args.get? 0).map (Value.toFloat M)).getD (M.ofInt 0)
    if M.ffractZero x then .integer (M.ftoInt (M.fabs x)) else .float (M.fabs x)
  | "len" =>
    match args.head? with
    | some (.str s) => .integer s.length
    | some (.array a) => .integer a.length
    | _ => .integer 0
  | _ => .integer 0

mutual
/-- `Debugger::run_instruction`.  Unlike the interpreter, errors are plain
strings, the mutated debugger is kept on error (the Rust method mutates
`self` in place), and `Call` runs the callee body inline with its own cursor
loop and no stack-depth limit. -/
def runInstr (M : FloatModel) :
    Nat → Dbg M.F → Instruction → Option (Dbg M.F × Except String (Option Int))
  | fuel, d, instr =>
    match instr with
    | .empty => some (d, .ok none)
    | .comment => some (d, .ok none)
    | .funcDef _ _ => some (d, .ok none)
    | .funcEnd => some (d, .ok none)
    | .imp _ => some (d, .ok none)
    | .assign target value => some (dassign M d target (dresolve M d value), .ok none)
    | .add r a b =>
      some (dassign M d r (Value.add M (dresolve M d a) (dresolve M d b)), .ok none)
    | .sub r a b =>
      some (dassign M d r (Value.sub M (dresolve M d a) (dresolve M d b)), .ok none)
    | .mul r a b =>
      some (dassign M d r (Value.mul M (dresolve M d a) (dresolve M d b)), .ok none)
    | .div r a b =>
      some (dassign M d r (Value.div M (dresolve M d a) (dresolve M d b)), .ok none)
    | .mod r a b =>
      some (dassign M d r (Value.modulo M (dresolve M d a) (dresolve M d b)), .ok none)
    | .lt r a b =>
      some (dassign M d r (Value.ltv M (dresolve M d a) (dresolve M d b)), .ok none)
    | .gt r a b =>
      some (dassign M d r (Value.gtv M (dresolve M d a) (dresolve M d b)), .ok none)
    | .eq r a b =>
      some (dassign M d r (Value.eqVal M (dresolve M d a) (dresolve M d b)), .ok none)
    | .not r a =>
      let val : Value M.F :=
        if (dresolve M d a).isTruthy M then .integer 0 else .integer 1
      some (dassign M d r val, .ok none)
    | .and r a b =>
      let val : Value M.F :=
        if (dresolve M d a).isTruthy M ∧ (dresolve M d b).isTruthy M
        then .integer 1 else .integer 0
      some (dassign M d r val, .ok none)
    | .or r a b =>
      let val : Value M.F :=
        if (dresolve M d a).isTruthy M ∨ (dresolve M d b).isTruthy M
        then .integer 1 else .integer 0
      some (dassign M d r val, .ok none)
    | .condJump cond label =>
      if (dresolve M d cond).isTruthy M then some (d, .ok (some label))
      else some (d, .ok none)
    | .jump label => some (d, .ok (some label))
    | .label _ => some (d, .ok none)
    | .call result funcId args =>
      let resolvedArgs := args.map (dresolve M d)
      -- the old frame is pushed BEFORE the function lookup, so an undefined
      -- function leaves the fresh frame installed when the error propagates
      let d1 : Dbg M.F :=
        { d with
          currentFrame := { funcId := funcId, line := 0, locals := [],
                            args := resolvedArgs },
          callStack := d.currentFrame :: d.callStack }
      match alist.get d1.functions funcId with
      | none => some (d1, .error ("Undefined function: " ++ toString funcId))
      | some func =>
        let funcLabels := func.body.enum.foldl
          (fun m p =>
            match p.2 with
            | .label id => alist.insert m id p.1
            | _ => m)
          []
        match fuel with
        | 0 => none
        | fuel + 1 =>
          match dbgCallLoop M fuel d1 func.body funcLabels 0 (.integer 0) with
          | none => none
          | some (d2, .error e) => some (d2, .error e)
          | some (d2, .ok returnVal) =>
            let d3 : Dbg M.F :=
              { d2 with
                currentFrame := d2.callStack.headD (StackFrame.main M.F),
                callStack := d2.callStack.tail }
            some (dassign M d3 result returnVal, .ok none)
    | .ret _ => some (d, .ok none)
    | .arrayCreate var size =>
      let size := ((dresolve M d size).toInt M).toNat
      some (dassign M d var (.array (List.replicate size (.integer 0))), .ok none)
    | .arrayRead result arr idx =>
      let array := dresolve M d arr
      let index := (dresolve M d idx).toInt M
      let val : Value M.F :=
        match array with
        | .array a =>
          if 0 ≤ index ∧ index.toNat < a.length then a.getD index.toNat (.integer 0)
          else .integer 0
        | _ => .integer 0
      some (dassign M d result val, .ok none)
    | .arrayWrite arr idx value =>
      let index := (dresolve M d idx).toInt M
      let val := dresolve M d value
      let varIdx := varIndex arr
      match arr.data.headD 'v' with
      | 'v' =>
        match alist.get d.currentFrame.locals varIdx with
        | some (.array a) =>
          if 0 ≤ index ∧ index.toNat < a.length then
            let newLocals := alist.insert d.currentFrame.locals varIdx
              (.array (a.set index.toNat val))
            some ({ d with currentFrame := { d.currentFrame with locals := newLocals } },
              .ok none)
          else some (d, .ok none)
        | _ => some (d, .ok none)
      | 'g' =>
        match alist.get d.globalVars varIdx with
        | some (.array a) =>
          if 0 ≤ index ∧ index.toNat < a.length then
            let newGlobals := alist.insert d.globalVars varIdx
              (.array (a.set index.toNat val))
            some ({ d with globalVars := newGlobals }, .ok none)
          else some (d, .ok none)
        | _ => some (d, .ok none)
      | _ => some (d, .ok none)
    | .output value =>
      let out := (dresolve M d value).display M
      some ({ d with output := d.output ++ [out] }, .ok none)
    | .input var =>
      let line := d.stdin.headD ""
      let d' := { d with stdin := d.stdin.tail }
      let t := String.mk ((line.data.dropWhile Char.isWhitespace).reverse.dropWhile
        Char.isWhitespace).reverse
      let val : Value M.F :=
        match parseI64 t with
        | some n => .integer n
        | none =>
          match M.fparse t with
          | some f => .float f
          | none => .str t
      some (dassign M d' var val, .ok none)
    | .rustFFI result func args =>
      let funcName := (dresolve M d func).display M
      let resolvedArgs := args.map (dresolve M d)
      some (dassign M d result (dcallBuiltin M funcName resolvedArgs), .ok none)

/-- The inline callee-body loop inside `Debugger::run_instruction`'s `Call`
arm: run each instruction, break with the resolved value when the executed
instruction is `Return`, otherwise follow jumps through the callee's label
table; falling off the end returns Integer 0. -/
def dbgCallLoop (M : FloatModel) :
    Nat → Dbg M.F → List Instruction → List (Int × Nat) → Nat → Value M.F →
    Option (Dbg M.F × Except String (Value M.F))
  | 0, _, _, _, _, _ => none
  | fuel + 1, d, body, funcLabels, fi, returnVal =>
    if fi < body.length then
      match runInstr M fuel d (body.getD fi .empty) with
      | none => none
      | some (d', .error e) => some (d', .error e)
      | some (d', .ok jump) =>
        match body.getD fi .empty with
        | .ret value => some (d', .ok (dresolve M d' value))
        | _ =>
          match jump with
          | some label =>
            match alist.get funcLabels label with
            | some pos => dbgCallLoop M fuel d' body funcLabels pos returnVal
            | none => dbgCallLoop M fuel d' body funcLabels (fi + 1) returnVal
          | none => dbgCallLoop M fuel d' body funcLabels (fi + 1) returnVal
    else some (d, .ok returnVal)
end

/-- The body of `Debugger::resume` after `state` is set to `Running`: loop
until end of program, an error, or a breakpoint.  The breakpoint test before
executing compares `state == Running`, which is always true inside this loop. -/
def resumeLoop (M : FloatModel) :
    Nat → Dbg M.F → Option (Dbg M.F × DebugEvent)
  | 0, _ => none
  | fuel + 1, d =>
    if d.ip < d.instructions.length then
      let p := d.instructions.getD d.ip (0, .empty)
      let frame' := { d.currentFrame with line := p.1 }
      let d := { d with currentLine := p.1, currentFrame := frame' }
      if d.breakpoints.contains p.1 ∧ d.state = .running then
        some ({ d with state := .paused }, .breakpoint p.1)
      else
        match runInstr M fuel d p.2 with
        | none => none
        | some (d', .error e) => some ({ d' with state := .finished }, .error e)
        | some (d', .ok jump) =>
          let d'' :=
            match jump with
            | some label =>
              match alist.get d'.labels label with
              | some pos => { d' with ip := pos }
              | none => { d' with ip := d'.ip + 1 }
            | none => { d' with ip := d'.ip + 1 }
          if d''.ip < d''.instructions.length then
            let nextLine := (d''.instructions.getD d''.ip (0, .empty)).1
            if d''.breakpoints.contains nextLine then
              some ({ d'' with currentLine := nextLine, state := .paused },
                .breakpoint nextLine)
            else resumeLoop M fuel d''
          else resumeLoop M fuel d''
    else some ({ d with state := .finished }, .finished)

/-- `Debugger::resume`: set `state := Running`, then loop. -/
def resume (M : FloatModel) (fuel : Nat) (d : Dbg M.F) :
    Option (Dbg M.F × DebugEvent) :=
  resumeLoop M fuel { d with state := .running }

end Debugger

/-! ## Python-to-Sui transpiler block closing (`src/transpiler/py2sui.rs`) -/

namespace Py2Sui

/-- `enum IndentContext`. -/
inductive IndentContext where
  | ifCtx (endLabel : Int)
  | ifElse (elseLabel endLabel : Int)
  | whileCtx (startLabel endLabel : Int)
  | forCtx (startLabel endLabel : Int) (loopVar : String)
  | function
  | elseCtx (endLabel : Int)
deriving DecidableEq

/-- The transpiler state that `close_blocks` touches: the emitted lines, the
context stack (top at the head, matching Vec push/pop at the end), and the
namespace bookkeeping restored when a `def` block closes. -/
structure CloseState where
  output : List String
  indentStack : List IndentContext
  isGlobal : Bool
  funcArgs : List String
deriving DecidableEq

/-- The exit sequence one popped context emits. -/
def closeEmit (ctx : IndentContext) : List String :=
  match ctx with
  | .ifCtx endLabel => [": " ++ toString endLabel]
  | .ifElse elseLabel endLabel => [": " ++ toString elseLabel, ": " ++ toString endLabel]
  | .elseCtx endLabel => [": " ++ toString endLabel]
  | .whileCtx startLabel endLabel =>
    ["@ " ++ toString startLabel, ": " ++ toString endLabel]
  | .forCtx startLabel endLabel loopVar =>
    ["+ " ++ loopVar ++ " " ++ loopVar ++ " 1",
     "@ " ++ toString startLabel, ": " ++ toString endLabel]
  | .function => ["\x7d"]

/-- `Py2Sui::close_blocks`.  The `while` loop in the source ends every
iteration with an unconditional `break`, so at most ONE context is popped
and emitted per call, however large the dedent is. -/
def closeBlocks (st : CloseState) (newIndent prevIndent : Nat) : CloseState :=
  if ¬ st.indentStack.isEmpty ∧ newIndent < prevIndent then
    match st.indentStack with
    | [] => st
    | ctx :: rest =>
      let popped : CloseState :=
        { st with output := st.output ++ closeEmit ctx, indentStack := rest }
      match ctx with
      | .function => { popped with isGlobal := true, funcArgs := [] }
      | _ => popped
  else st

end Py2Sui

/-! ## Execution invariants -/

/-- The parts of the interpreter state an instruction can never change:
the saved frame stack (balanced push/pop), the function table, and the
configured depth limit. -/
def framePres {F : Type} (s s' : InterpState F) : Prop :=
  s'.contextStack = s.contextStack ∧ s'.functions = s.functions ∧
  s'.maxStackDepth = s.maxStackDepth

theorem framePres_refl {F : Type} (s : InterpState F) : framePres s s :=
  ⟨rfl, rfl, rfl⟩

theorem framePres_trans {F : Type} {s1 s2 s3 : InterpState F}
    (h1 : framePres s1 s2) (h2 : framePres s2 s3) : framePres s1 s3 :=
  ⟨h2.1.trans h1.1, h2.2.1.trans h1.2.1, h2.2.2.trans h1.2.2⟩

theorem framePres_assign (M : FloatModel) (s : InterpState M.F) (var : String)
    (v : Value M.F) : framePres s (assign M s var v) := by
  unfold assign framePres
  split <;> simp


/-! ### Unfolding equations for the fuel-indexed execution functions
(the definitional equations do not rewrite well with a variable fuel, so
they are restated here; each is definitional once the fuel is destructed). -/

theorem execInstr_empty (M : FloatModel) (fuel : Nat) (s : InterpState M.F) :
    execInstr M fuel s .empty = some (.ok (s, true, none)) := by
  cases fuel <;> rfl

theorem execInstr_comment (M : FloatModel) (fuel : Nat) (s : InterpState M.F) :
    execInstr M fuel s .comment = some (.ok (s, true, none)) := by
  cases fuel <;> rfl

theorem execInstr_funcEnd (M : FloatModel) (fuel : Nat) (s : InterpState M.F) :
    execInstr M fuel s .funcEnd = some (.ok (s, true, none)) := by
  cases fuel <;> rfl

theorem execInstr_funcDef (M : FloatModel) (fuel : Nat) (s : InterpState M.F)
    (id argc : Int) :
    execInstr M fuel s (.funcDef id argc) = some (.ok (s, true, none)) := by
  cases fuel <;> rfl

theorem execInstr_imp (M : FloatModel) (fuel : Nat) (s : InterpState M.F) (p : String) :
    execInstr M fuel s (.imp p) = some (.ok (s, true, none)) := by
  cases fuel <;> rfl

theorem execInstr_label (M : FloatModel) (fuel : Nat) (s : InterpState M.F) (l : Int) :
    execInstr M fuel s (.label l) = some (.ok (s, true, none)) := by
  cases fuel <;> rfl

theorem execInstr_assign (M : FloatModel) (fuel : Nat) (s : InterpState M.F)
    (t v : String) :
    execInstr M fuel s (.assign t v) =
    some (.ok (assign M s t (resolve M s v), true, none)) := by
  cases fuel <;> rfl

theorem execInstr_add (M : FloatModel) (fuel : Nat) (s : InterpState M.F)
    (r a b : String) :
    execInstr M fuel s (.add r a b) =
    some (.ok (assign M s r (Value.add M (resolve M s a) (resolve M s b)), true, none)) := by
  cases fuel <;> rfl

theorem execInstr_sub (M : FloatModel) (fuel : Nat) (s : InterpState M.F)
    (r a b : String) :
    execInstr M fuel s (.sub r a b) =
    some (.ok (assign M s r (Value.sub M (resolve M s a) (resolve M s b)), true, none)) := by
  cases fuel <;> rfl

theorem execInstr_mul (M : FloatModel) (fuel : Nat) (s : InterpState M.F)
    (r a b : String) :
    execInstr M fuel s (.mul r a b) =
    some (.ok (assign M s r (Value.mul M (resolve M s a) (resolve M s b)), true, none)) := by
  cases fuel <;> rfl

theorem execInstr_div (M : FloatModel) (fuel : Nat) (s : InterpState M.F)
    (r a b : String) :
    execInstr M fuel s (.div r a b) =
    some (.ok (assign M s r (Value.div M (resolve M s a) (resolve M s b)), true, none)) := by
  cases fuel <;> rfl

theorem execInstr_mod (M : FloatModel) (fuel : Nat) (s : InterpState M.F)
    (r a b : String) :
    execInstr M fuel s (.mod r a b) =
    some (.ok (assign M s r (Value.modulo M (resolve M s a) (resolve M s b)), true, none)) := by
  cases fuel <;> rfl

theorem execInstr_lt (M : FloatModel) (fuel : Nat) (s : InterpState M.F)
    (r a b : String) :
    execInstr M fuel s (.lt r a b) =
    some (.ok (assign M s r (Value.ltv M (resolve M s a) (resolve M s b)), true, none)) := by
  cases fuel <;> rfl

theorem execInstr_gt (M : FloatModel) (fuel : Nat) (s : InterpState M.F)
    (r a b : String) :
    execInstr M fuel s (.gt r a b) =
    some (.ok (assign M s r (Value.gtv M (resolve M s a) (resolve M s b)), true, none)) := by
  cases fuel <;> rfl

theorem execInstr_eq (M : FloatModel) (fuel : Nat) (s : InterpState M.F)
    (r a b : String) :
    execInstr M fuel s (.eq r a b) =
    some (.ok (assign M s r (Value.eqVal M (resolve M s a) (resolve M s b)), true, none)) := by
  cases fuel <;> rfl

theorem execInstr_not (M : FloatModel) (fuel : Nat) (s : InterpState M.F)
    (r a : String) :
    execInstr M fuel s (.not r a) =
    some (.ok (assign M s r
      (if (resolve M s a).isTruthy M then Value.integer 0 else Value.integer 1),
      true, none)) := by
  cases fuel <;> rfl

theorem execInstr_and (M : FloatModel) (fuel : Nat) (s : InterpState M.F)
    (r a b : String) :
    execInstr M fuel s (.and r a b) =
    some (.ok (assign M s r
      (if (resolve M s a).isTruthy M ∧ (resolve M s b).isTruthy M
       then Value.integer 1 else Value.integer 0),
      true, none)) := by
  cases fuel <;> rfl

theorem execInstr_or (M : FloatModel) (fuel : Nat) (s : InterpState M.F)
    (r a b : String) :
    execInstr M fuel s (.or r a b) =
    some (.ok (assign M s r
      (if (resolve M s a).isTruthy M ∨ (resolve M s b).isTruthy M
       then Value.integer 1 else Value.integer 0),
      true, none)) := by
  cases fuel <;> rfl

theorem execInstr_condJump (M : FloatModel) (fuel : Nat) (s : InterpState M.F)
    (cond : String) (label : Int) :
    execInstr M fuel s (.condJump cond label) =
    (if (resolve M s cond).isTruthy M then some (.ok (s, true, some label))
     else some (.ok (s, true, none))) := by
  cases fuel <;> rfl

theorem execInstr_jump (M : FloatModel) (fuel : Nat) (s : InterpState M.F)
    (label : Int) :
    execInstr M fuel s (.jump label) = some (.ok (s, true, some label)) := by
  cases fuel <;> rfl

theorem execInstr_ret (M : FloatModel) (fuel : Nat) (s : InterpState M.F)
    (value : String) :
    execInstr M fuel s (.ret value) =
    some (.ok ({ s with context := { s.context with
      returnValue := resolve M s value, returned := true } }, false, none)) := by
  cases fuel <;> rfl

theorem execInstr_arrayCreate (M : FloatModel) (fuel : Nat) (s : InterpState M.F)
    (var size : String) :
    execInstr M fuel s (.arrayCreate var size) =
    some (.ok (assign M s var
      (.array (List.replicate ((resolve M s size).toInt M).toNat (.integer 0))),
      true, none)) := by
  cases fuel <;> rfl

theorem execInstr_arrayRead (M : FloatModel) (fuel : Nat) (s : InterpState M.F)
    (result arr idx : String) :
    execInstr M fuel s (.arrayRead result arr idx) =
    some (.ok (assign M s result
      (match resolve M s arr with
       | .array a =>
         if 0 ≤ (resolve M s idx).toInt M ∧ ((resolve M s idx).toInt M).toNat < a.length
         then a.getD ((resolve M s idx).toInt M).toNat (.integer 0)
         else .integer 0
       | _ => .integer 0),
      true, none)) := by
  cases fuel <;> rfl

theorem execInstr_arrayWrite (M : FloatModel) (fuel : Nat) (s : InterpState M.F)
    (arr idx value : String) :
    execInstr M fuel s (.arrayWrite arr idx value) =
    (match arr.data.headD 'v' with
     | 'v' =>
       match alist.get s.context.localVars (varIndex arr) with
       | some (.array a) =>
         if 0 ≤ (resolve M s idx).toInt M ∧ ((resolve M s idx).toInt M).toNat < a.length then
           some (.ok ({ s with context := { s.context with
             localVars := alist.insert s.context.localVars (varIndex arr)
               (.array (a.set ((resolve M s idx).toInt M).toNat (resolve M s value))) } },
             true, none))
         else some (.ok (s, true, none))
       | _ => some (.ok (s, true, none))
     | 'g' =>
       match alist.get s.globalVars (varIndex arr) with
       | some (.array a) =>
         if 0 ≤ (resolve M s idx).toInt M ∧ ((resolve M s idx).toInt M).toNat < a.length then
           some (.ok
             ({ s with
                globalVars := alist.insert s.globalVars (varIndex arr)
                  (.array (a.set ((resolve M s idx).toInt M).toNat (resolve M s value))) },
              true, none))
         else some (.ok (s, true, none))
       | _ => some (.ok (s, true, none))
     | _ => some (.ok (s, true, none))) := by
  cases fuel <;> rfl

theorem execInstr_output (M : FloatModel) (fuel : Nat) (s : InterpState M.F)
    (value : String) :
    execInstr M fuel s (.output value) =
    some (.ok ({ s with output := s.output ++ [(resolve M s value).display M] },
      true, none)) := by
  cases fuel <;> rfl

theorem execInstr_input (M : FloatModel) (fuel : Nat) (s : InterpState M.F)
    (var : String) :
    execInstr M fuel s (.input var) =
    some (.ok (assign M { s with stdin := s.stdin.tail } var
      (match parseI64 (String.mk ((((s.stdin.headD "").data.dropWhile
          Char.isWhitespace).reverse.dropWhile Char.isWhitespace).reverse)) with
       | some n => .integer n
       | none =>
         match M.fparse (String.mk ((((s.stdin.headD "").data.dropWhile
             Char.isWhitespace).reverse.dropWhile Char.isWhitespace).reverse)) with
         | some f => .float f
         | none => .str (String.mk ((((s.stdin.headD "").data.dropWhile
             Char.isWhitespace).reverse.dropWhile Char.isWhitespace).reverse))),
      true, none)) := by
  cases fuel <;> rfl

theorem execInstr_rustFFI (M : FloatModel) (fuel : Nat) (s : InterpState M.F)
    (result func : String) (args : List String) :
    execInstr M fuel s (.rustFFI result func args) =
    (match callBuiltin M s.clock ((resolve M s func).display M)
        (args.map (resolve M s)) with
     | (val, clock') =>
       some (.ok (assign M { s with clock := clock' } result val, true, none))) := by
  cases fuel <;> rfl

theorem execInstr_call_zero (M : FloatModel) (s : InterpState M.F)
    (r : String) (fid : Int) (args : List String) :
    execInstr M 0 s (.call r fid args) =
    (if s.contextStack.length ≥ s.maxStackDepth then some (.error .stackOverflow)
     else
       match alist.get s.functions fid with
       | none => some (.error (.undefinedFunction fid))
       | some _ => none) := rfl

theorem execInstr_call_succ (M : FloatModel) (fuel : Nat) (s : InterpState M.F)
    (r : String) (fid : Int) (args : List String) :
    execInstr M (fuel + 1) s (.call r fid args) =
    (if s.contextStack.length ≥ s.maxStackDepth then some (.error .stackOverflow)
     else
       match alist.get s.functions fid with
       | none => some (.error (.undefinedFunction fid))
       | some func =>
         match execBlockLoop M fuel
             { s with
               context := { Context.init M.F with args := args.map (resolve M s) },
               contextStack := s.context :: s.contextStack }
             func.body (labelsOf func.body) 0 with
         | none => none
         | some (.error e) => some (.error e)
         | some (.ok s2) =>
           some (.ok (assign M
             { s2 with
               context := s2.contextStack.headD (Context.init M.F),
               contextStack := s2.contextStack.tail }
             r s2.context.returnValue, true, none))) := rfl

theorem execBlockLoop_zero (M : FloatModel) (s : InterpState M.F)
    (instrs : List Instruction) (labels : List (Int × Nat)) (i : Nat) :
    execBlockLoop M 0 s instrs labels i = none := rfl

theorem execBlockLoop_succ (M : FloatModel) (fuel : Nat) (s : InterpState M.F)
    (instrs : List Instruction) (labels : List (Int × Nat)) (i : Nat) :
    execBlockLoop M (fuel + 1) s instrs labels i =
    (if i < instrs.length then
      if s.context.returned then some (.ok s)
      else
        match execInstr M fuel s (instrs.getD i .empty) with
        | none => none
        | some (.error e) => some (.error e)
        | some (.ok (s', cont, jumpLabel)) =>
          if cont then
            match jumpLabel with
            | some label =>
              match alist.get labels label with
              | some pos => execBlockLoop M fuel s' instrs labels pos
              | none => execBlockLoop M fuel s' instrs labels (i + 1)
            | none => execBlockLoop M fuel s' instrs labels (i + 1)
          else some (.ok s')
    else some (.ok s)) := rfl

theorem exec_framePres (M : FloatModel) : ∀ fuel : Nat,
    (∀ (s : InterpState M.F) i r, execInstr M fuel s i = some (.ok r) → framePres s r.1) ∧
    (∀ (s : InterpState M.F) instrs labels idx s',
      execBlockLoop M fuel s instrs labels idx = some (.ok s') → framePres s s') := by
  have instrCase :
      ∀ fuel, (∀ (s : InterpState M.F) instrs labels idx s',
        execBlockLoop M fuel s instrs labels idx = some (.ok s') → framePres s s') →
      ∀ (s : InterpState M.F) i r, execInstr M (fuel + 1) s i = some (.ok r) →
        framePres s r.1 := by
    intro fuel ihLoop s i r h
    cases i with
    | call result funcId args =>
      rw [execInstr_call_succ] at h
      split at h
      · exact absurd h (by simp)
      · split at h
        · exact absurd h (by simp)
        · rename_i func hfunc
          split at h
          · exact absurd h (by simp)
          · exact absurd h (by simp)
          · rename_i s2 hblk
            obtain ⟨rfl⟩ := h
            have hpres := ihLoop _ _ _ _ _ hblk
            refine framePres_trans ?_ (framePres_assign M _ _ _)
            obtain ⟨h1, h2, h3⟩ := hpres
            simp only [framePres] at h1 h2 h3 ⊢
            simp [h1, h2, h3]
    | empty => rw [execInstr_empty] at h; obtain ⟨rfl⟩ := h; exact framePres_refl s
    | comment => rw [execInstr_comment] at h; obtain ⟨rfl⟩ := h; exact framePres_refl s
    | funcEnd => rw [execInstr_funcEnd] at h; obtain ⟨rfl⟩ := h; exact framePres_refl s
    | funcDef id argc =>
      rw [execInstr_funcDef] at h; obtain ⟨rfl⟩ := h; exact framePres_refl s
    | imp p => rw [execInstr_imp] at h; obtain ⟨rfl⟩ := h; exact framePres_refl s
    | label l => rw [execInstr_label] at h; obtain ⟨rfl⟩ := h; exact framePres_refl s
    | jump l => rw [execInstr_jump] at h; obtain ⟨rfl⟩ := h; exact framePres_refl s
    | condJump c l =>
      rw [execInstr_condJump] at h
      split at h <;> (obtain ⟨rfl⟩ := h; exact framePres_refl s)
    | assign t v => rw [execInstr_assign] at h; obtain ⟨rfl⟩ := h; exact framePres_assign ..
    | add a b c => rw [execInstr_add] at h; obtain ⟨rfl⟩ := h; exact framePres_assign ..
    | sub a b c => rw [execInstr_sub] at h; obtain ⟨rfl⟩ := h; exact framePres_assign ..
    | mul a b c => rw [execInstr_mul] at h; obtain ⟨rfl⟩ := h; exact framePres_assign ..
    | div a b c => rw [execInstr_div] at h; obtain ⟨rfl⟩ := h; exact framePres_assign ..
    | mod a b c => rw [execInstr_mod] at h; obtain ⟨rfl⟩ := h; exact framePres_assign ..
    | lt a b c => rw [execInstr_lt] at h; obtain ⟨rfl⟩ := h; exact framePres_assign ..
    | gt a b c => rw [execInstr_gt] at h; obtain ⟨rfl⟩ := h; exact framePres_assign ..
    | eq a b c => rw [execInstr_eq] at h; obtain ⟨rfl⟩ := h; exact framePres_assign ..
    | not a b => rw [execInstr_not] at h; obtain ⟨rfl⟩ := h; exact framePres_assign ..
    | and a b c => rw [execInstr_and] at h; obtain ⟨rfl⟩ := h; exact framePres_assign ..
    | or a b c => rw [execInstr_or] at h; obtain ⟨rfl⟩ := h; exact framePres_assign ..
    | ret v =>
      rw [execInstr_ret] at h; obtain ⟨rfl⟩ := h; simp [framePres]
    | arrayCreate v n =>
      rw [execInstr_arrayCreate] at h; obtain ⟨rfl⟩ := h; exact framePres_assign ..
    | arrayRead a b c =>
      rw [execInstr_arrayRead] at h; obtain ⟨rfl⟩ := h; exact framePres_assign ..
    | arrayWrite a b c =>
      rw [execInstr_arrayWrite] at h
      repeat' split at h
      all_goals (obtain ⟨rfl⟩ := h; simp [framePres])
    | output v =>
      rw [execInstr_output] at h; obtain ⟨rfl⟩ := h; simp [framePres]
    | input v =>
      rw [execInstr_input] at h; obtain ⟨rfl⟩ := h
      exact framePres_trans (by simp [framePres]) (framePres_assign ..)
    | rustFFI a b c =>
      rw [execInstr_rustFFI] at h
      split at h
      obtain ⟨rfl⟩ := h
      exact framePres_trans (by simp [framePres]) (framePres_assign ..)
  intro fuel
  induction fuel with
  | zero =>
    constructor
    · intro s i r h
      cases i with
      | call result funcId args =>
        rw [execInstr_call_zero] at h
        split at h
        · exact absurd h (by simp)
        · split at h
          · exact absurd h (by simp)
          · exact absurd h (by simp)
      | empty => rw [execInstr_empty] at h; obtain ⟨rfl⟩ := h; exact framePres_refl s
      | comment => rw [execInstr_comment] at h; obtain ⟨rfl⟩ := h; exact framePres_refl s
      | funcEnd => rw [execInstr_funcEnd] at h; obtain ⟨rfl⟩ := h; exact framePres_refl s
      | funcDef id argc =>
        rw [execInstr_funcDef] at h; obtain ⟨rfl⟩ := h; exact framePres_refl s
      | imp p => rw [execInstr_imp] at h; obtain ⟨rfl⟩ := h; exact framePres_refl s
      | label l => rw [execInstr_label] at h; obtain ⟨rfl⟩ := h; exact framePres_refl s
      | jump l => rw [execInstr_jump] at h; obtain ⟨rfl⟩ := h; exact framePres_refl s
      | condJump c l =>
        rw [execInstr_condJump] at h
        split at h <;> (obtain ⟨rfl⟩ := h; exact framePres_refl s)
      | assign t v =>
        rw [execInstr_assign] at h; obtain ⟨rfl⟩ := h; exact framePres_assign ..
      | add a b c => rw [execInstr_add] at h; obtain ⟨rfl⟩ := h; exact framePres_assign ..
      | sub a b c => rw [execInstr_sub] at h; obtain ⟨rfl⟩ := h; exact framePres_assign ..
      | mul a b c => rw [execInstr_mul] at h; obtain ⟨rfl⟩ := h; exact framePres_assign ..
      | div a b c => rw [execInstr_div] at h; obtain ⟨rfl⟩ := h; exact framePres_assign ..
      | mod a b c => rw [execInstr_mod] at h; obtain ⟨rfl⟩ := h; exact framePres_assign ..
      | lt a b c => rw [execInstr_lt] at h; obtain ⟨rfl⟩ := h; exact framePres_assign ..
      | gt a b c => rw [execInstr_gt] at h; obtain ⟨rfl⟩ := h; exact framePres_assign ..
      | eq a b c => rw [execInstr_eq] at h; obtain ⟨rfl⟩ := h; exact framePres_assign ..
      | not a b => rw [execInstr_not] at h; obtain ⟨rfl⟩ := h; exact framePres_assign ..
      | and a b c => rw [execInstr_and] at h; obtain ⟨rfl⟩ := h; exact framePres_assign ..
      | or a b c => rw [execInstr_or] at h; obtain ⟨rfl⟩ := h; exact framePres_assign ..
      | ret v => rw [execInstr_ret] at h; obtain ⟨rfl⟩ := h; simp [framePres]
      | arrayCreate v n =>
        rw [execInstr_arrayCreate] at h; obtain ⟨rfl⟩ := h; exact framePres_assign ..
      | arrayRead a b c =>
        rw [execInstr_arrayRead] at h; obtain ⟨rfl⟩ := h; exact framePres_assign ..
      | arrayWrite a b c =>
        rw [execInstr_arrayWrite] at h
        repeat' split at h
        all_goals (obtain ⟨rfl⟩ := h; simp [framePres])
      | output v => rw [execInstr_output] at h; obtain ⟨rfl⟩ := h; simp [framePres]
      | input v =>
        rw [execInstr_input] at h; obtain ⟨rfl⟩ := h
        exact framePres_trans (by simp [framePres]) (framePres_assign ..)
      | rustFFI a b c =>
        rw [execInstr_rustFFI] at h
        split at h
        obtain ⟨rfl⟩ := h
        exact framePres_trans (by simp [framePres]) (framePres_assign ..)
    · intro s instrs labels idx s' h
      rw [execBlockLoop_zero] at h
      exact absurd h (by simp)
  | succ fuel ih =>
    obtain ⟨ihInstr, ihLoop⟩ := ih
    refine ⟨instrCase fuel ihLoop, ?_⟩
    intro s instrs labels idx s' h
    rw [execBlockLoop_succ] at h
    split at h
    · split at h
      · obtain ⟨rfl⟩ := h
        exact framePres_refl s
      · cases hinstr : execInstr M fuel s (instrs.getD idx .empty) with
        | none => rw [hinstr] at h; exact absurd h (by simp)
        | some res =>
          rw [hinstr] at h
          rcases res with e | ⟨s'', cont, jl⟩
          · exact absurd h (by simp)
          · have hp1 : framePres s s'' := ihInstr _ _ _ hinstr
            simp only at h
            cases cont with
            | false =>
              simp only [Bool.false_eq_true, if_false] at h
              obtain ⟨rfl⟩ := h
              exact hp1
            | true =>
              simp only [if_true] at h
              cases jl with
              | none => exact framePres_trans hp1 (ihLoop _ _ _ _ _ h)
              | some label =>
                simp only at h
                cases hlab : alist.get labels label with
                | none => rw [hlab] at h; exact framePres_trans hp1 (ihLoop _ _ _ _ _ h)
                | some pos => rw [hlab] at h; exact framePres_trans hp1 (ihLoop _ _ _ _ _ h)
    · obtain ⟨rfl⟩ := h
      exact framePres_refl s

/-- The frame produced by `assign`: a `v`-target inserts into the current
frame's locals, anything else (globals, arguments, malformed) leaves the
current frame untouched. -/
theorem assign_context (M : FloatModel) (s : InterpState M.F) (var : String)
    (v : Value M.F) :
    (assign M s var v).context =
    (if var.data.headD 'v' = 'v'
     then { s.context with localVars := alist.insert s.context.localVars (varIndex var) v }
     else s.context) := by
  unfold assign
  split
  · rename_i h; rw [if_pos h]
  · rename_i h; rw [if_neg (by rw [h]; decide)]
  · rename_i h _; rw [if_neg h]

theorem execInstr_preserves_return (M : FloatModel) (fuel : Nat)
    (s : InterpState M.F) (i : Instruction) (r : InterpState M.F × Bool × Option Int)
    (hne : ∀ v, i ≠ .ret v) (h : execInstr M fuel s i = some (.ok r)) :
    r.1.context.returnValue = s.context.returnValue ∧
    r.1.context.returned = s.context.returned := by
  have hassign : ∀ (s0 : InterpState M.F) var v,
      (assign M s0 var v).context.returnValue = s0.context.returnValue ∧
      (assign M s0 var v).context.returned = s0.context.returned := by
    intro s0 var v
    rw [assign_context]
    split <;> simp
  cases i with
  | ret v => exact absurd rfl (hne v)
  | call result funcId args =>
    cases fuel with
    | zero =>
      rw [execInstr_call_zero] at h
      split at h
      · exact absurd h (by simp)
      · split at h <;> exact absurd h (by simp)
    | succ fuel =>
      rw [execInstr_call_succ] at h
      split at h
      · exact absurd h (by simp)
      · split at h
        · exact absurd h (by simp)
        · rename_i func hfunc
          split at h
          · exact absurd h (by simp)
          · exact absurd h (by simp)
          · rename_i s2 hblk
            obtain ⟨rfl⟩ := h
            have hstk : s2.contextStack = s.context :: s.contextStack :=
              ((exec_framePres M fuel).2 _ _ _ _ _ hblk).1
            have hctx : ({ s2 with
                context := s2.contextStack.headD (Context.init M.F),
                contextStack := s2.contextStack.tail } : InterpState M.F).context =
                s.context := by
              simp [hstk]
            constructor
            · exact ((hassign _ result s2.context.returnValue).1).trans (by rw [hctx])
            · exact ((hassign _ result s2.context.returnValue).2).trans (by rw [hctx])
  | empty => rw [execInstr_empty] at h; obtain ⟨rfl⟩ := h; exact ⟨rfl, rfl⟩
  | comment => rw [execInstr_comment] at h; obtain ⟨rfl⟩ := h; exact ⟨rfl, rfl⟩
  | funcEnd => rw [execInstr_funcEnd] at h; obtain ⟨rfl⟩ := h; exact ⟨rfl, rfl⟩
  | funcDef id argc => rw [execInstr_funcDef] at h; obtain ⟨rfl⟩ := h; exact ⟨rfl, rfl⟩
  | imp p => rw [execInstr_imp] at h; obtain ⟨rfl⟩ := h; exact ⟨rfl, rfl⟩
  | label l => rw [execInstr_label] at h; obtain ⟨rfl⟩ := h; exact ⟨rfl, rfl⟩
  | jump l => rw [execInstr_jump] at h; obtain ⟨rfl⟩ := h; exact ⟨rfl, rfl⟩
  | condJump c l =>
    rw [execInstr_condJump] at h
    split at h <;> (obtain ⟨rfl⟩ := h; exact ⟨rfl, rfl⟩)
  | assign t v => rw [execInstr_assign] at h; obtain ⟨rfl⟩ := h; exact hassign ..
  | add a b c => rw [execInstr_add] at h; obtain ⟨rfl⟩ := h; exact hassign ..
  | sub a b c => rw [execInstr_sub] at h; obtain ⟨rfl⟩ := h; exact hassign ..
  | mul a b c => rw [execInstr_mul] at h; obtain ⟨rfl⟩ := h; exact hassign ..
  | div a b c => rw [execInstr_div] at h; obtain ⟨rfl⟩ := h; exact hassign ..
  | mod a b c => rw [execInstr_mod] at h; obtain ⟨rfl⟩ := h; exact hassign ..
  | lt a b c => rw [execInstr_lt] at h; obtain ⟨rfl⟩ := h; exact hassign ..
  | gt a b c => rw [execInstr_gt] at h; obtain ⟨rfl⟩ := h; exact hassign ..
  | eq a b c => rw [execInstr_eq] at h; obtain ⟨rfl⟩ := h; exact hassign ..
  | not a b => rw [execInstr_not] at h; obtain ⟨rfl⟩ := h; exact hassign ..
  | and a b c => rw [execInstr_and] at h; obtain ⟨rfl⟩ := h; exact hassign ..
  | or a b c => rw [execInstr_or] at h; obtain ⟨rfl⟩ := h; exact hassign ..
  | arrayCreate v n => rw [execInstr_arrayCreate] at h; obtain ⟨rfl⟩ := h; exact hassign ..
  | arrayRead a b c => rw [execInstr_arrayRead] at h; obtain ⟨rfl⟩ := h; exact hassign ..
  | arrayWrite a b c =>
    rw [execInstr_arrayWrite] at h
    repeat' split at h
    all_goals (obtain ⟨rfl⟩ := h; simp)
  | output v => rw [execInstr_output] at h; obtain ⟨rfl⟩ := h; exact ⟨rfl, rfl⟩
  | input v =>
    rw [execInstr_input] at h; obtain ⟨rfl⟩ := h
    exact hassign ..
  | rustFFI a b c =>
    rw [execInstr_rustFFI] at h
    split at h
    obtain ⟨rfl⟩ := h
    exact hassign ..

/-- A block whose instruction list contains no `^` (Return) leaves the
current frame's return value untouched (nested calls save and restore it). -/
theorem execBlockLoop_preserves_return (M : FloatModel) : ∀ (fuel : Nat)
    (s : InterpState M.F) instrs labels idx s',
    (∀ i ∈ instrs, ∀ v, i ≠ Instruction.ret v) →
    execBlockLoop M fuel s instrs labels idx = some (.ok s') →
    s'.context.returnValue = s.context.returnValue := by
  intro fuel
  induction fuel with
  | zero => intro s instrs labels idx s' _ h; rw [execBlockLoop_zero] at h; simp at h
  | succ fuel ih =>
    intro s instrs labels idx s' hnr h
    rw [execBlockLoop_succ] at h
    split at h
    · split at h
      · obtain ⟨rfl⟩ := h; rfl
      · rename_i hlt _
        cases hinstr : execInstr M fuel s (instrs.getD idx .empty) with
        | none => rw [hinstr] at h; exact absurd h (by simp)
        | some res =>
          rw [hinstr] at h
          rcases res with e | ⟨s'', cont, jl⟩
          · exact absurd h (by simp)
          · have hmem : instrs.getD idx .empty ∈ instrs := by
              rw [List.getD_eq_getElem?_getD, List.getElem?_eq_getElem hlt]
              exact List.getElem_mem _
            have hp1 := execInstr_preserves_return M fuel s _ _
              (fun v => hnr _ hmem v) hinstr
            simp only at h
            cases cont with
            | false =>
              simp only [Bool.false_eq_true, if_false] at h
              obtain ⟨rfl⟩ := h
              exact hp1.1
            | true =>
              simp only [if_true] at h
              cases jl with
              | none => exact (ih _ _ _ _ _ hnr h).trans hp1.1
              | some label =>
                simp only at h
                cases hlab : alist.get labels label with
                | none => rw [hlab] at h; exact (ih _ _ _ _ _ hnr h).trans hp1.1
                | some pos => rw [hlab] at h; exact (ih _ _ _ _ _ hnr h).trans hp1.1
    · obtain ⟨rfl⟩ := h; rfl

/-! ## Claim C3: frame restoration around a function call -/

/-- Claim C3: a `$ r f a…` call that completes without error restores the
caller's frame: the frame stack, the caller's arguments, and the caller's
locals are exactly as before the call, except that the result target `r` (a
`v`-variable; `g` writes the global store, anything else is dropped) is
assigned the callee's return value, which is Integer 0 whenever the callee
body contains no `^` (Return) instruction. -/
theorem call_frame_restoration (M : FloatModel) (fuel : Nat) (s : InterpState M.F)
    (r : String) (fid : Int) (args : List String) (s' : InterpState M.F) (b : Bool)
    (ol : Option Int)
    (h : execInstr M fuel s (.call r fid args) = some (.ok (s', b, ol))) :
    b = true ∧ ol = none ∧ s'.contextStack = s.contextStack ∧
    ∃ rv : Value M.F,
      s'.context =
        (if r.data.headD 'v' = 'v'
         then { s.context with
                localVars := alist.insert s.context.localVars (varIndex r) rv }
         else s.context) ∧
      ∀ func, alist.get s.functions fid = some func →
        (∀ i ∈ func.body, ∀ v, i ≠ Instruction.ret v) → rv = Value.integer 0 := by
  cases fuel with
  | zero =>
    rw [execInstr_call_zero] at h
    split at h
    · exact absurd h (by simp)
    · split at h <;> exact absurd h (by simp)
  | succ fuel =>
    rw [execInstr_call_succ] at h
    split at h
    · exact absurd h (by simp)
    · split at h
      · exact absurd h (by simp)
      · rename_i func0 hfunc
        split at h
        · exact absurd h (by simp)
        · exact absurd h (by simp)
        · rename_i s2 hblk
          obtain ⟨rfl, rfl, rfl⟩ := h
          have hstk : s2.contextStack = s.context :: s.contextStack :=
            ((exec_framePres M fuel).2 _ _ _ _ _ hblk).1
          have hctx : ({ s2 with
              context := s2.contextStack.headD (Context.init M.F),
              contextStack := s2.contextStack.tail } : InterpState M.F).context =
              s.context := by
            simp [hstk]
          refine ⟨rfl, rfl, ?_, s2.context.returnValue, ?_, ?_⟩
          · have := (framePres_assign M ({ s2 with
              context := s2.contextStack.headD (Context.init M.F),
              contextStack := s2.contextStack.tail } : InterpState M.F)
              r s2.context.returnValue).1
            rw [this]
            simp [hstk]
          · rw [assign_context, hctx]
          · intro func hfunc2 hnr
            rw [hfunc] at hfunc2
            obtain ⟨rfl⟩ := hfunc2
            have := execBlockLoop_preserves_return M fuel _ _ _ _ _ hnr hblk
            simpa using this

/-- A two-instruction callee with no Return, for the concrete instance of
C3: calling it writes Integer 0 into the caller's `v1`, everything else in
the caller frame unchanged. -/
def c3State : InterpState unitFloat.F :=
  { globalVars := [], functions := [(0, ⟨0, 0, [Instruction.assign "v0" "7"]⟩)],
    contextStack := [], context := Context.init unitFloat.F, output := [],
    maxStackDepth := 10, stdin := [], clock := [] }

/-- The state `c3State` reaches after `$ v1 0`. -/
def c3Final : InterpState unitFloat.F :=
  { globalVars := [], functions := [(0, ⟨0, 0, [Instruction.assign "v0" "7"]⟩)],
    contextStack := [],
    context := { localVars := [(1, .integer 0)], args := [],
                 returnValue := .integer 0, returned := false },
    output := [], maxStackDepth := 10, stdin := [], clock := [] }

theorem call_frame_restoration_witness :
    true = true ∧ (none : Option Int) = none ∧
    c3Final.contextStack = c3State.contextStack ∧
    ∃ rv : Value unitFloat.F,
      c3Final.context =
        (if "v1".data.headD 'v' = 'v'
         then { c3State.context with
                localVars := alist.insert c3State.context.localVars (varIndex "v1") rv }
         else c3State.context) ∧
      ∀ func, alist.get c3State.functions 0 = some func →
        (∀ i ∈ func.body, ∀ v, i ≠ Instruction.ret v) → rv = Value.integer 0 :=
  call_frame_restoration unitFloat 5 c3State "v1" 0 [] c3Final true none rfl

/-! ## Claim C1: out-of-range array reads and writes -/

/-- Claim C1: with an Array of length `n` stored in a `v`- or `g`-variable
and an index outside `[0,n)`, the array-read instruction `]` assigns
Integer 0 to the result variable, and the array-write instruction `{`
leaves the whole observable state (array, locals, globals, output log)
unchanged. -/
theorem array_oob_read_write (M : FloatModel) (fuel : Nat) (s : InterpState M.F)
    (resTok arrTok idxTok valTok : String) (A : List (Value M.F))
    (hvar : Lexer.parseValue M arrTok = .Variable arrTok)
    (hpref : arrTok.data.headD 'v' = 'v' ∨ arrTok.data.headD 'v' = 'g')
    (hlookup : (if arrTok.data.headD 'v' = 'v'
        then alist.get s.context.localVars (varIndex arrTok)
        else alist.get s.globalVars (varIndex arrTok)) = some (.array A))
    (hoob : ¬ (0 ≤ (resolve M s idxTok).toInt M ∧
        ((resolve M s idxTok).toInt M).toNat < A.length)) :
    execInstr M fuel s (.arrayRead resTok arrTok idxTok) =
      some (.ok (assign M s resTok (.integer 0), true, none)) ∧
    execInstr M fuel s (.arrayWrite arrTok idxTok valTok) =
      some (.ok (s, true, none)) := by
  have hresolve : resolve M s arrTok = Value.array A := by
    unfold resolve
    rw [hvar]
    rcases hpref with hp | hp
    · rw [if_pos hp] at hlookup
      rw [List.headD_eq_head?] at hp
      simp [hp, hlookup]
    · rw [if_neg (by rw [hp]; decide)] at hlookup
      rw [List.headD_eq_head?] at hp
      simp [hp, hlookup]
  constructor
  · rw [execInstr_arrayRead, hresolve]
    simp only [if_neg hoob]
  · rw [execInstr_arrayWrite]
    rcases hpref with hp | hp
    · rw [if_pos hp] at hlookup
      simp only [hp, hlookup, if_neg hoob]
    · rw [if_neg (by rw [hp]; decide)] at hlookup
      simp only [hp, hlookup, if_neg hoob]

/-- A frame whose `v0` holds the one-element array `[7]`, for the concrete
instances of C1 and C4. -/
def c1State : InterpState unitFloat.F :=
  { globalVars := [], functions := [], contextStack := [],
    context := { localVars := [(0, .array [.integer 7])], args := [],
                 returnValue := .integer 0, returned := false },
    output := [], maxStackDepth := 10, stdin := [], clock := [] }

theorem array_oob_read_write_witness :
    execInstr unitFloat 3 c1State (.arrayRead "v1" "v0" "5") =
      some (.ok (assign unitFloat c1State "v1" (.integer 0), true, none)) ∧
    execInstr unitFloat 3 c1State (.arrayWrite "v0" "5" "9") =
      some (.ok (c1State, true, none)) :=
  array_oob_read_write unitFloat 3 c1State "v1" "v0" "5" "9" [.integer 7]
    rfl (Or.inl rfl) rfl (by decide)

/-! ## Claim C10: taken jumps to a label missing from the block -/

/-- Claim C10: a taken jump (`@ L`, or `? c L` with a truthy condition)
whose label id has no `: L` in the current block raises no error: execution
continues, unchanged, at the instruction immediately after the jump. -/
theorem jump_missing_label_continues (M : FloatModel) (fuel : Nat)
    (s : InterpState M.F) (instrs : List Instruction) (idx : Nat) (L : Int)
    (hidx : idx < instrs.length) (hret : s.context.returned = false)
    (hmiss : alist.get (labelsOf instrs) L = none)
    (hinstr : instrs.getD idx .empty = .jump L ∨
      ∃ c, instrs.getD idx .empty = .condJump c L ∧ (resolve M s c).isTruthy M) :
    execBlockLoop M (fuel + 1) s instrs (labelsOf instrs) idx =
      execBlockLoop M fuel s instrs (labelsOf instrs) (idx + 1) := by
  rw [execBlockLoop_succ, if_pos hidx, if_neg (by simp [hret])]
  rcases hinstr with hj | ⟨c, hc, htruthy⟩
  · rw [hj, execInstr_jump]
    simp only [if_true, hmiss]
  · rw [hc, execInstr_condJump, if_pos htruthy]
    simp only [if_true, hmiss]

/-- The block `[@ 99, . "x"]` with no label 99, for the concrete instance
of C10: the jump falls through to the output instruction. -/
def c10Instrs : List Instruction := [.jump 99, .output "7"]

theorem jump_missing_label_continues_witness :
    execBlockLoop unitFloat 3 c1State c10Instrs (labelsOf c10Instrs) 0 =
      execBlockLoop unitFloat 2 c1State c10Instrs (labelsOf c10Instrs) 1 :=
  jump_missing_label_continues unitFloat 2 c1State c10Instrs 0 99
    (by decide) rfl rfl (Or.inl rfl)

/-! ## Claim C4: in-place array writes are visible to subsequent reads -/

/-- Replacing one local variable's array by a same-length array changes no
operand's `to_int` (only array contents change, and `to_int` of an array is
its length). -/
theorem resolve_toInt_insert_local (M : FloatModel) (s : InterpState M.F)
    (k : Int) (A A' : List (Value M.F))
    (hk : alist.get s.context.localVars k = some (.array A))
    (hlen : A'.length = A.length) (t : String) :
    (resolve M { s with context := { s.context with
        localVars := alist.insert s.context.localVars k (.array A') } } t).toInt M =
    (resolve M s t).toInt M := by
  unfold resolve
  cases hpv : Lexer.parseValue M t with
  | Variable var =>
    simp only
    split
    · rw [alist.get_insert]
      by_cases hik : varIndex var = k
      · rw [if_pos hik, hik, hk]
        simp [Value.toInt, hlen]
      · rw [if_neg hik]
    · rfl
    · rfl
    · rfl
  | integer n => rfl
  | float f => rfl
  | str s2 => rfl

/-- The global-store twin of `resolve_toInt_insert_local`. -/
theorem resolve_toInt_insert_global (M : FloatModel) (s : InterpState M.F)
    (k : Int) (A A' : List (Value M.F))
    (hk : alist.get s.globalVars k = some (.array A))
    (hlen : A'.length = A.length) (t : String) :
    (resolve M { s with globalVars := alist.insert s.globalVars k (.array A') } t).toInt M =
    (resolve M s t).toInt M := by
  unfold resolve
  cases hpv : Lexer.parseValue M t with
  | Variable var =>
    simp only
    split
    · rfl
    · rw [alist.get_insert]
      by_cases hik : varIndex var = k
      · rw [if_pos hik, hik, hk]
        simp [Value.toInt, hlen]
      · rw [if_neg hik]
    · rfl
    · rfl
  | integer n => rfl
  | float f => rfl
  | str s2 => rfl

/-- Claim C4: for an Array of length `n` held in a `v`- or `g`-variable and
an index `i` in `[0,n)`, the write `{ x i val` mutates the canonical array
in the owning namespace, and the following read `] r x i` assigns the
written value `val` to `r`. -/
theorem array_write_then_read (M : FloatModel) (fuel1 fuel2 : Nat)
    (s : InterpState M.F) (resTok arrTok idxTok valTok : String)
    (A : List (Value M.F))
    (hvar : Lexer.parseValue M arrTok = .Variable arrTok)
    (hpref : arrTok.data.headD 'v' = 'v' ∨ arrTok.data.headD 'v' = 'g')
    (hlookup : (if arrTok.data.headD 'v' = 'v'
        then alist.get s.context.localVars (varIndex arrTok)
        else alist.get s.globalVars (varIndex arrTok)) = some (.array A))
    (hin : 0 ≤ (resolve M s idxTok).toInt M ∧
        ((resolve M s idxTok).toInt M).toNat < A.length) :
    ∃ s' : InterpState M.F,
      execInstr M fuel1 s (.arrayWrite arrTok idxTok valTok) =
        some (.ok (s', true, none)) ∧
      execInstr M fuel2 s' (.arrayRead resTok arrTok idxTok) =
        some (.ok (assign M s' resTok (resolve M s valTok), true, none)) := by
  rcases hpref with hp | hp
  · rw [if_pos hp] at hlookup
    refine ⟨{ s with context := { s.context with
      localVars := alist.insert s.context.localVars (varIndex arrTok)
        (.array (A.set ((resolve M s idxTok).toInt M).toNat (resolve M s valTok))) } },
      ?_, ?_⟩
    · rw [execInstr_arrayWrite]
      simp only [hp, hlookup, if_pos hin]
    · have hidx2 := resolve_toInt_insert_local M s (varIndex arrTok) A
        (A.set ((resolve M s idxTok).toInt M).toNat (resolve M s valTok))
        hlookup (List.length_set ..) idxTok
      have hra : resolve M { s with context := { s.context with
          localVars := alist.insert s.context.localVars (varIndex arrTok)
            (.array (A.set ((resolve M s idxTok).toInt M).toNat
              (resolve M s valTok))) } } arrTok =
          .array (A.set ((resolve M s idxTok).toInt M).toNat (resolve M s valTok)) := by
        unfold resolve
        rw [hvar]
        rw [List.headD_eq_head?] at hp
        simp [hp, alist.get_insert]
      rw [execInstr_arrayRead, hra, hidx2]
      simp only
      rw [if_pos (by constructor
                     · exact hin.1
                     · rw [List.length_set]; exact hin.2)]
      rw [List.getD_eq_getElem?_getD,
        List.getElem?_set_self (by simpa using hin.2)]
      rfl
  · rw [if_neg (by rw [hp]; decide)] at hlookup
    refine ⟨{ s with
      globalVars := alist.insert s.globalVars (varIndex arrTok)
        (.array (A.set ((resolve M s idxTok).toInt M).toNat (resolve M s valTok))) },
      ?_, ?_⟩
    · rw [execInstr_arrayWrite]
      simp only [hp, hlookup, if_pos hin]
    · have hidx2 := resolve_toInt_insert_global M s (varIndex arrTok) A
        (A.set ((resolve M s idxTok).toInt M).toNat (resolve M s valTok))
        hlookup (List.length_set ..) idxTok
      have hra : resolve M { s with
          globalVars := alist.insert s.globalVars (varIndex arrTok)
            (.array (A.set ((resolve M s idxTok).toInt M).toNat
              (resolve M s valTok))) } arrTok =
          .array (A.set ((resolve M s idxTok).toInt M).toNat (resolve M s valTok)) := by
        unfold resolve
        rw [hvar]
        rw [List.headD_eq_head?] at hp
        simp [hp, alist.get_insert]
      rw [execInstr_arrayRead, hra, hidx2]
      simp only
      rw [if_pos (by constructor
                     · exact hin.1
                     · rw [List.length_set]; exact hin.2)]
      rw [List.getD_eq_getElem?_getD,
        List.getElem?_set_self (by simpa using hin.2)]
      rfl

theorem array_write_then_read_witness :
    ∃ s' : InterpState unitFloat.F,
      execInstr unitFloat 3 c1State (.arrayWrite "v0" "0" "9") =
        some (.ok (s', true, none)) ∧
      execInstr unitFloat 3 s' (.arrayRead "v1" "v0" "0") =
        some (.ok (assign unitFloat s' "v1" (resolve unitFloat c1State "9"), true, none)) :=
  array_write_then_read unitFloat 3 3 c1State "v1" "v0" "0" "9" [.integer 7]
    rfl (Or.inl rfl) rfl (by decide)

/-! ## Claims C5 and C7: where parse errors carry their line numbers -/

/-- A `MissingArguments` error from `Parser::check_args` carries the line
number it was handed. -/
theorem checkArgs_error_line (op : String) (args : List String) (min lineNum : Nat)
    (e : ParseError) (h : Parser.checkArgs op args min lineNum = .error e) :
    e.line = lineNum := by
  unfold Parser.checkArgs at h
  split at h
  · injection h with h2; subst h2; rfl
  · exact absurd h (by simp)

/-- Every error produced by `Parser::parse_line` carries exactly the line
number it was handed. -/
theorem parseLine_error_line (tokens : List String) (lineNum : Nat) (e : ParseError)
    (h : Parser.parseLine tokens lineNum = .error e) : e.line = lineNum := by
  unfold Parser.parseLine at h
  split at h
  · exact Except.noConfusion h
  · repeat' split at h
    all_goals
      first
      | exact Except.noConfusion h
      | (injection h with h2; subst h2; rfl)
      | (injection h with h2; subst h2
         exact checkArgs_error_line _ _ _ _ _ (by assumption))

/-- Any error escaping the body-collection loop is either its own
`UnmatchedBrace` or a `parse_line` error at the token line it indexes. -/
theorem collectBody_error :
    ∀ (tls : List (List String)) (lineNum depth : Nat) (e : ParseError),
    Parser.collectBody tls lineNum depth = .error e →
    (∃ n, e = .unmatchedBrace n) ∨
    ∃ j t, tls.get? j = some t ∧ Parser.parseLine t (lineNum + j) = .error e := by
  intro tls
  induction tls with
  | nil =>
    intro lineNum depth e h
    rw [Parser.collectBody] at h
    by_cases hd : depth = 0
    · simp [hd] at h
    · simp only [if_neg hd] at h
      injection h with h2
      exact Or.inl ⟨lineNum, h2.symm⟩
  | cons tokens rest ih =>
    intro lineNum depth e h
    rw [Parser.collectBody] at h
    by_cases hd : depth = 0
    · simp [hd] at h
    · simp only [if_neg hd] at h
      cases hpl : Parser.parseLine tokens lineNum with
      | error e0 =>
        rw [hpl] at h
        injection h with h2
        subst h2
        exact Or.inr ⟨0, tokens, rfl, by simpa using hpl⟩
      | ok instr =>
        rw [hpl] at h
        simp only at h
        cases hcb : Parser.collectBody rest (lineNum + 1) (Parser.braceStep instr depth) with
        | error e0 =>
          rw [hcb] at h
          injection h with h2
          subst h2
          rcases ih (lineNum + 1) _ _ hcb with hbrace | ⟨j, t, hget, hpl2⟩
          · exact Or.inl hbrace
          · refine Or.inr ⟨j + 1, t, by simpa using hget, ?_⟩
            have : lineNum + (j + 1) = lineNum + 1 + j := by omega
            rw [this]
            exact hpl2
        | ok res =>
          obtain ⟨body, r, ln⟩ := res
          rw [hcb] at h
          exact Except.noConfusion h

/-- Any error escaping the top-level parse loop is either an
`UnmatchedBrace` or a `parse_line` error at the token line it indexes. -/
theorem parseLoop_error :
    ∀ (fuel : Nat) (tls : List (List String)) (lineNum : Nat) (e : ParseError),
    Parser.parseLoop fuel tls lineNum = .error e →
    (∃ n, e = .unmatchedBrace n) ∨
    ∃ j t, tls.get? j = some t ∧ Parser.parseLine t (lineNum + j) = .error e := by
  intro fuel
  induction fuel with
  | zero =>
    intro tls lineNum e h
    cases tls with
    | nil => exact Except.noConfusion h
    | cons tokens rest => exact Except.noConfusion h
  | succ fuel ih =>
    intro tls lineNum e h
    cases tls with
    | nil => exact Except.noConfusion h
    | cons tokens rest =>
      rw [Parser.parseLoop] at h
      cases hpl : Parser.parseLine tokens lineNum with
      | error e0 =>
        rw [hpl] at h
        injection h with h2
        subst h2
        exact Or.inr ⟨0, tokens, rfl, by simpa using hpl⟩
      | ok instr =>
        rw [hpl] at h
        have shift : ∀ e2, ((∃ n, e2 = ParseError.unmatchedBrace n) ∨
            ∃ j t, rest.get? j = some t ∧
              Parser.parseLine t (lineNum + 1 + j) = .error e2) →
            (∃ n, e2 = ParseError.unmatchedBrace n) ∨
            ∃ j t, (tokens :: rest).get? j = some t ∧
              Parser.parseLine t (lineNum + j) = .error e2 := by
          intro e2 hyp
          rcases hyp with hb | ⟨j, t, hget, hpl2⟩
          · exact Or.inl hb
          · refine Or.inr ⟨j + 1, t, by simpa using hget, ?_⟩
            have : lineNum + (j + 1) = lineNum + 1 + j := by omega
            rw [this]
            exact hpl2
        cases instr with
        | funcDef id argc =>
          simp only at h
          cases hcb : Parser.collectBody rest (lineNum + 1) 1 with
          | error e0 =>
            rw [hcb] at h
            injection h with h2
            subst h2
            exact shift _ (collectBody_error _ _ _ _ hcb)
          | ok res =>
            obtain ⟨body, r, ln⟩ := res
            rw [hcb] at h
            simp only at h
            cases hpl2 : Parser.parseLoop fuel r ln with
            | error e0 =>
              rw [hpl2] at h
              injection h with h2
              subst h2
              rcases ih r ln _ hpl2 with hb | ⟨j, t, hget, hpl3⟩
              · exact Or.inl hb
              · obtain ⟨k, hk, hrk, hlnk⟩ := Parser.collectBody_suffix _ _ _ _ _ _ hcb
                subst hrk hlnk
                refine Or.inr ⟨1 + k + j, t, ?_, ?_⟩
                · have hidx : 1 + k + j = (k + j) + 1 := by omega
                  rw [hidx, List.get?_cons_succ, ← List.get?_drop, hget]
                · have : lineNum + (1 + k + j) = lineNum + 1 + k + j := by omega
                  rw [this]
                  exact hpl3
            | ok res2 =>
              obtain ⟨instrs, funcs⟩ := res2
              rw [hpl2] at h
              exact Except.noConfusion h
        | funcEnd =>
          simp only at h
          exact shift _ (ih rest (lineNum + 1) _ h)
        | _ =>
          simp only at h
          cases hpl2 : Parser.parseLoop fuel rest (lineNum + 1) with
          | error e0 =>
            rw [hpl2] at h
            injection h with h2
            subst h2
            exact shift _ (ih rest (lineNum + 1) _ hpl2)
          | ok res2 =>
            obtain ⟨instrs, funcs⟩ := res2
            rw [hpl2] at h
            exact Except.noConfusion h

/-- A token line that fails `parse_line` at its enumerated line number puts
its error into the list collected by `Parser::validate`. -/
theorem validateLoop_mem :
    ∀ (tls : List (List String)) (i j : Nat) (t : List String) (e : ParseError),
    tls.get? j = some t → Parser.parseLine t (i + j + 1) = .error e →
    e ∈ Parser.validateLoop tls i := by
  intro tls
  induction tls with
  | nil => intro i j t e hget _; simp at hget
  | cons tokens rest ih =>
    intro i j t e hget hpl
    cases j with
    | zero =>
      simp only [List.get?_cons_zero, Option.some.injEq] at hget
      subst hget
      unfold Parser.validateLoop
      rw [show i.succ = i + 0 + 1 by omega, hpl]
      exact List.mem_cons_self _ _
    | succ j =>
      simp only [List.get?_cons_succ] at hget
      have hmem := ih (i + 1) j t e hget (by rw [show i + 1 + j + 1 = i + (j + 1) + 1 by omega]; exact hpl)
      unfold Parser.validateLoop
      split
      · exact List.mem_cons_of_mem _ hmem
      · exact hmem

/-! ### Claim C5 -/

/-- Claim C5 is false as stated: parse-for-execution reports an
`UnmatchedBrace` on an unterminated function definition, but validate —
which parses each line independently and never tracks block structure —
reports no error at all for the same source. -/
theorem validate_misses_unmatched_brace :
    Parser.parse "# 0 1 \x7b" = .error (.unmatchedBrace 2) ∧
    Parser.validate "# 0 1 \x7b" = [] := ⟨rfl, rfl⟩

/-- Claim C5 (amended): for every parse error reported by
parse-for-execution OTHER than `UnmatchedBrace`, validate reports that same
error (same kind, same line number) in its returned list; `UnmatchedBrace`
errors are reported only by parse-for-execution. -/
theorem parse_error_in_validate (code : String) (e : ParseError)
    (h : Parser.parse code = .error e) (hnb : ∀ n, e ≠ .unmatchedBrace n) :
    e ∈ Parser.validate code := by
  unfold Parser.parse at h
  rcases parseLoop_error _ _ _ _ h with ⟨n, rfl⟩ | ⟨j, t, hget, hpl⟩
  · exact absurd rfl (hnb n)
  · unfold Parser.validate
    exact validateLoop_mem _ 0 j t e hget
      (by rw [show 0 + j + 1 = 1 + j by omega]; exact hpl)

theorem parse_error_in_validate_witness :
    (ParseError.missingArguments "=" 1 2 1) ∈ Parser.validate "= v0" :=
  parse_error_in_validate "= v0" (.missingArguments "=" 1 2 1) rfl
    (fun n h => nomatch h)

/-! ### Claim C7 -/

/-- Claim C7 is false as stated: in `"\n= v0"` the offending physical
source line is line 2 (physical line 1 is blank and parses fine as an empty
instruction), but the reported error carries line number 1, because blank
and comment-only lines are dropped by the lexer before lines are counted. -/
theorem parse_line_number_not_physical :
    Lexer.rustLines "\n= v0" = ["", "= v0"] ∧
    Parser.parseLine (Lexer.tokenizeLine "") 1 = .ok .empty ∧
    Parser.parse "\n= v0" = .error (.missingArguments "=" 1 2 1) := ⟨rfl, rfl, rfl⟩

/-- Claim C7 (amended): the ParseError carries the 1-based index of the
offending line within the sequence of NON-EMPTY token lines (blank and
comment-only lines are dropped before numbering), for every parse error
other than `UnmatchedBrace`. -/
theorem parse_error_line_indexes_token_lines (code : String) (e : ParseError)
    (h : Parser.parse code = .error e) (hnb : ∀ n, e ≠ .unmatchedBrace n) :
    ∃ j t, (Lexer.parse code).get? j = some t ∧
      Parser.parseLine t (j + 1) = .error e ∧ e.line = j + 1 := by
  unfold Parser.parse at h
  rcases parseLoop_error _ _ _ _ h with ⟨n, rfl⟩ | ⟨j, t, hget, hpl⟩
  · exact absurd rfl (hnb n)
  · have hline : (1 : Nat) + j = j + 1 := by omega
    rw [hline] at hpl
    exact ⟨j, t, hget, hpl, parseLine_error_line _ _ _ hpl⟩

theorem parse_error_line_indexes_token_lines_witness :
    ∃ j t, (Lexer.parse "\n\n= g1").get? j = some t ∧
      Parser.parseLine t (j + 1) = .error (.missingArguments "=" 1 2 1) ∧
      (ParseError.missingArguments "=" 1 2 1).line = j + 1 :=
  parse_error_line_indexes_token_lines "\n\n= g1" (.missingArguments "=" 1 2 1)
    rfl (fun n h => nomatch h)

/-! ## Claim C8: the debugger's resume re-triggers the breakpoint it is
paused on -/

/-- The debugger freshly loaded with `= v0 1 / = v1 2 / = v2 3` and a
breakpoint on line 2. -/
def c8Start : Debugger.Dbg unitFloat.F :=
  { breakpoints := [2], state := .paused, currentLine := 0,
    instructions := [(1, .assign "v0" "1"), (2, .assign "v1" "2"),
                     (3, .assign "v2" "3")],
    functions := [], globalVars := [], callStack := [],
    currentFrame := Debugger.StackFrame.main unitFloat.F, output := [],
    labels := [], ip := 0, sourceLines := ["= v0 1", "= v1 2", "= v2 3"],
    stdin := [] }

/-- `c8Start` after the first resume: line 1 executed, paused before the
breakpointed line 2 (`ip = 1`). -/
def c8AfterFirst : Debugger.Dbg unitFloat.F :=
  { breakpoints := [2], state := .paused, currentLine := 2,
    instructions := [(1, .assign "v0" "1"), (2, .assign "v1" "2"),
                     (3, .assign "v2" "3")],
    functions := [], globalVars := [], callStack := [],
    currentFrame := { funcId := -1, line := 1, locals := [(0, .integer 1)],
                      args := [] },
    output := [], labels := [], ip := 1,
    sourceLines := ["= v0 1", "= v1 2", "= v2 3"], stdin := [] }

/-- `c8AfterFirst` after another resume: still `ip = 1`, line 2 still not
executed — only the frame's line marker moved. -/
def c8AfterSecond : Debugger.Dbg unitFloat.F :=
  { breakpoints := [2], state := .paused, currentLine := 2,
    instructions := [(1, .assign "v0" "1"), (2, .assign "v1" "2"),
                     (3, .assign "v2" "3")],
    functions := [], globalVars := [], callStack := [],
    currentFrame := { funcId := -1, line := 2, locals := [(0, .integer 1)],
                      args := [] },
    output := [], labels := [], ip := 1,
    sourceLines := ["= v0 1", "= v1 2", "= v2 3"], stdin := [] }

/-- Claim C8 fails on the code: `resume` first sets `state := Running`, so
the `state == Running` guard on the pre-instruction breakpoint check is
always satisfied and the breakpoint that caused the pause fires again
BEFORE the paused-on instruction executes.  After the first pause at line 2
(`ip = 1`), every further resume returns `Breakpoint 2` with `ip` still 1,
`v1` never assigned — `c8AfterSecond` is a literal fixed point of resume —
so successive resume calls make no progress, contradicting the claim that
the initial instruction under resume executes and does not re-trigger. -/
theorem resume_retriggers_breakpoint :
    (Debugger.load unitFloat "= v0 1\n= v1 2\n= v2 3" []).map
      (fun d => Debugger.setBreakpoint unitFloat.F d 2) = .ok c8Start ∧
    Debugger.resume unitFloat 10 c8Start = some (c8AfterFirst, .breakpoint 2) ∧
    Debugger.resume unitFloat 10 c8AfterFirst = some (c8AfterSecond, .breakpoint 2) ∧
    Debugger.resume unitFloat 10 c8AfterSecond = some (c8AfterSecond, .breakpoint 2) ∧
    c8AfterSecond.ip = c8AfterFirst.ip ∧
    alist.get c8AfterSecond.currentFrame.locals 1 = none :=
  ⟨rfl, rfl, rfl, rfl, rfl, rfl⟩

/-! ## Claim C9: the transpiler closes at most one block per dedent -/

/-- Claim C9 fails on the code: with two `while` contexts open (the inner
one on top) and a dedent that ends both, `close_blocks` emits the exit
sequence of the INNER block only and pops a single context — the `while`
loop in the source ends in an unconditional `break`.  The same happens at
end of input: a still-open `def` block leaves its `}` unemitted when
another block sits above it. -/
theorem close_blocks_pops_single :
    Py2Sui.closeBlocks
      { output := [], indentStack := [.whileCtx 2 3, .whileCtx 0 1],
        isGlobal := true, funcArgs := [] } 0 8 =
      { output := ["@ 2", ": 3"], indentStack := [.whileCtx 0 1],
        isGlobal := true, funcArgs := [] } ∧
    (Py2Sui.closeBlocks
      { output := [], indentStack := [.whileCtx 2 3, .whileCtx 0 1],
        isGlobal := true, funcArgs := [] } 0 8).indentStack.length = 1 ∧
    Py2Sui.closeBlocks
      { output := [], indentStack := [.whileCtx 0 1, .function],
        isGlobal := false, funcArgs := ["n"] } 0 8 =
      { output := ["@ 0", ": 1"], indentStack := [.function],
        isGlobal := false, funcArgs := ["n"] } :=
  ⟨by decide, by decide, by decide⟩


/-! ## Claim C6: the two-run determinism property and the `randint` clock

`call_builtin`'s `randint` arm reads `SystemTime::now()`, modelled as the
explicit `clock` stream.  The relation `eqButClock` (equal in every state
component except the clock) is a bisimulation for execution as long as no
`RustFFI` instruction runs, which yields: output is independent of the
clock for FFI-free programs.  With an `R`-instruction the property fails:
`run_randint_clock_dependent` below exhibits two runs on identical code,
arguments and stdin that print different values. -/

/-- Whether an instruction is the `R`/`P` builtin dispatch — the only
instruction that can reach `randint` and hence the system clock. -/
def Instruction.isFFI : Instruction → Bool
  | .rustFFI _ _ _ => true
  | _ => false

/-- Every function body reachable from the function table is free of
`R`/`P` instructions. -/
def noFFIFuns (funcs : List (Int × Function)) : Prop :=
  ∀ (fid : Int) (f : Function), alist.get funcs fid = some f →
    ∀ i ∈ f.body, i.isFFI = false

/-- Two interpreter states that agree on everything except the clock
stream. -/
def eqButClock {F : Type} (s t : InterpState F) : Prop :=
  s.globalVars = t.globalVars ∧ s.functions = t.functions ∧
  s.contextStack = t.contextStack ∧ s.context = t.context ∧
  s.output = t.output ∧ s.maxStackDepth = t.maxStackDepth ∧
  s.stdin = t.stdin

/-- Result correspondence for `execInstr` under `eqButClock`. -/
def instrRel {F : Type} :
    Option (Except InterpreterError (InterpState F × Bool × Option Int)) →
    Option (Except InterpreterError (InterpState F × Bool × Option Int)) → Prop
  | none, none => True
  | some (.error e), some (.error e2) => e = e2
  | some (.ok (s, b, jl)), some (.ok (t, b2, jl2)) =>
    eqButClock s t ∧ b = b2 ∧ jl = jl2
  | _, _ => False

/-- Result correspondence for `execBlockLoop` under `eqButClock`. -/
def blockRel {F : Type} :
    Option (Except InterpreterError (InterpState F)) →
    Option (Except InterpreterError (InterpState F)) → Prop
  | none, none => True
  | some (.error e), some (.error e2) => e = e2
  | some (.ok s), some (.ok t) => eqButClock s t
  | _, _ => False

theorem instrRel_refl {F : Type}
    (x : Option (Except InterpreterError (InterpState F × Bool × Option Int))) :
    instrRel x x := by
  rcases x with - | (e | ⟨s, b, jl⟩)
  · trivial
  · rfl
  · exact ⟨⟨rfl, rfl, rfl, rfl, rfl, rfl, rfl⟩, rfl, rfl⟩

theorem resolve_congr (M : FloatModel) {s t : InterpState M.F}
    (h : eqButClock s t) (x : String) : resolve M s x = resolve M t x := by
  obtain ⟨hg, -, -, hctx, -, -, -⟩ := h
  unfold resolve
  rw [hctx, hg]

theorem assign_congr (M : FloatModel) {s t : InterpState M.F}
    (h : eqButClock s t) (var : String) (v : Value M.F) :
    eqButClock (assign M s var v) (assign M t var v) := by
  obtain ⟨hg, hf, hcs, hctx, ho, hm, hstdin⟩ := h
  unfold assign
  split
  · exact ⟨hg, hf, hcs, by rw [hctx], ho, hm, hstdin⟩
  · exact ⟨by rw [hg], hf, hcs, hctx, ho, hm, hstdin⟩
  · exact ⟨hg, hf, hcs, hctx, ho, hm, hstdin⟩

theorem getD_noFFI (instrs : List Instruction) (idx : Nat)
    (h : ∀ i ∈ instrs, i.isFFI = false) :
    (instrs.getD idx Instruction.empty).isFFI = false := by
  induction instrs generalizing idx with
  | nil => cases idx <;> rfl
  | cons a as ih =>
    cases idx with
    | zero => exact h a (List.mem_cons_self a as)
    | succ n => exact ih n (fun i hi => h i (List.mem_cons_of_mem a hi))

/-- `eqButClock` is preserved by every non-`call` instruction (the clock can
only matter through `RustFFI`, which the hypothesis excludes). -/
theorem execInstr_clock_noncall (M : FloatModel) (fuel : Nat)
    (s t : InterpState M.F) (i : Instruction) (h : eqButClock s t)
    (hFFI : i.isFFI = false)
    (hnc : ∀ r fid args, i ≠ .call r fid args) :
    instrRel (execInstr M fuel s i) (execInstr M fuel t i) := by
  cases i with
  | call r fid args => exact absurd rfl (hnc r fid args)
  | empty => rw [execInstr_empty, execInstr_empty]; exact ⟨h, rfl, rfl⟩
  | comment => rw [execInstr_comment, execInstr_comment]; exact ⟨h, rfl, rfl⟩
  | funcEnd => rw [execInstr_funcEnd, execInstr_funcEnd]; exact ⟨h, rfl, rfl⟩
  | funcDef id argc => rw [execInstr_funcDef, execInstr_funcDef]; exact ⟨h, rfl, rfl⟩
  | imp p => rw [execInstr_imp, execInstr_imp]; exact ⟨h, rfl, rfl⟩
  | label l => rw [execInstr_label, execInstr_label]; exact ⟨h, rfl, rfl⟩
  | jump l => rw [execInstr_jump, execInstr_jump]; exact ⟨h, rfl, rfl⟩
  | condJump c0 l =>
    rw [execInstr_condJump, execInstr_condJump, resolve_congr M h c0]
    by_cases hc : (resolve M t c0).isTruthy M = true
    · rw [if_pos hc, if_pos hc]; exact ⟨h, rfl, rfl⟩
    · rw [if_neg hc, if_neg hc]; exact ⟨h, rfl, rfl⟩
  | assign tgt v =>
    rw [execInstr_assign, execInstr_assign, resolve_congr M h v]
    exact ⟨assign_congr M h tgt _, rfl, rfl⟩
  | add r a b =>
    rw [execInstr_add, execInstr_add, resolve_congr M h a, resolve_congr M h b]
    exact ⟨assign_congr M h r _, rfl, rfl⟩
  | sub r a b =>
    rw [execInstr_sub, execInstr_sub, resolve_congr M h a, resolve_congr M h b]
    exact ⟨assign_congr M h r _, rfl, rfl⟩
  | mul r a b =>
    rw [execInstr_mul, execInstr_mul, resolve_congr M h a, resolve_congr M h b]
    exact ⟨assign_congr M h r _, rfl, rfl⟩
  | div r a b =>
    rw [execInstr_div, execInstr_div, resolve_congr M h a, resolve_congr M h b]
    exact ⟨assign_congr M h r _, rfl, rfl⟩
  | mod r a b =>
    rw [execInstr_mod, execInstr_mod, resolve_congr M h a, resolve_congr M h b]
    exact ⟨assign_congr M h r _, rfl, rfl⟩
  | lt r a b =>
    rw [execInstr_lt, execInstr_lt, resolve_congr M h a, resolve_congr M h b]
    exact ⟨assign_congr M h r _, rfl, rfl⟩
  | gt r a b =>
    rw [execInstr_gt, execInstr_gt, resolve_congr M h a, resolve_congr M h b]
    exact ⟨assign_congr M h r _, rfl, rfl⟩
  | eq r a b =>
    rw [execInstr_eq, execInstr_eq, resolve_congr M h a, resolve_congr M h b]
    exact ⟨assign_congr M h r _, rfl, rfl⟩
  | not r a =>
    rw [execInstr_not, execInstr_not, resolve_congr M h a]
    exact ⟨assign_congr M h r _, rfl, rfl⟩
  | and r a b =>
    rw [execInstr_and, execInstr_and, resolve_congr M h a, resolve_congr M h b]
    exact ⟨assign_congr M h r _, rfl, rfl⟩
  | or r a b =>
    rw [execInstr_or, execInstr_or, resolve_congr M h a, resolve_congr M h b]
    exact ⟨assign_congr M h r _, rfl, rfl⟩
  | ret v =>
    rw [execInstr_ret, execInstr_ret, resolve_congr M h v]
    obtain ⟨hg, hf, hcs, hctx, ho, hm, hstdin⟩ := h
    exact ⟨⟨hg, hf, hcs, by rw [hctx], ho, hm, hstdin⟩, rfl, rfl⟩
  | arrayCreate var size =>
    rw [execInstr_arrayCreate, execInstr_arrayCreate, resolve_congr M h size]
    exact ⟨assign_congr M h var _, rfl, rfl⟩
  | arrayRead r arr ix =>
    rw [execInstr_arrayRead, execInstr_arrayRead, resolve_congr M h arr,
      resolve_congr M h ix]
    exact ⟨assign_congr M h r _, rfl, rfl⟩
  | arrayWrite arr ix v =>
    rw [execInstr_arrayWrite, execInstr_arrayWrite, resolve_congr M h ix,
      resolve_congr M h v]
    obtain ⟨hg, hf, hcs, hctx, ho, hm, hstdin⟩ := h
    rw [hctx, hg]
    repeat' split
    all_goals first
    | exact ⟨⟨rfl, hf, hcs, rfl, ho, hm, hstdin⟩, rfl, rfl⟩
    | exact ⟨⟨rfl, hf, hcs, hctx, ho, hm, hstdin⟩, rfl, rfl⟩
    | exact ⟨⟨hg, hf, hcs, hctx, ho, hm, hstdin⟩, rfl, rfl⟩
  | output v =>
    rw [execInstr_output, execInstr_output, resolve_congr M h v]
    obtain ⟨hg, hf, hcs, hctx, ho, hm, hstdin⟩ := h
    rw [ho]
    exact ⟨⟨hg, hf, hcs, hctx, rfl, hm, hstdin⟩, rfl, rfl⟩
  | input var =>
    rw [execInstr_input, execInstr_input]
    obtain ⟨hg, hf, hcs, hctx, ho, hm, hstdin⟩ := h
    rw [hstdin]
    refine ⟨assign_congr M ?_ var _, rfl, rfl⟩
    exact ⟨hg, hf, hcs, hctx, ho, hm, rfl⟩
  | rustFFI r f args => simp [Instruction.isFFI] at hFFI

/-- Clock bisimulation: on FFI-free instructions (and an FFI-free function
table), execution from two states that differ only in the clock stream
yields results that differ only in the clock stream. -/
theorem exec_clock_congr (M : FloatModel) : ∀ fuel : Nat,
    (∀ (s t : InterpState M.F) (i : Instruction), eqButClock s t →
      i.isFFI = false → noFFIFuns s.functions →
      instrRel (execInstr M fuel s i) (execInstr M fuel t i)) ∧
    (∀ (s t : InterpState M.F) (instrs : List Instruction)
      (labels : List (Int × Nat)) (idx : Nat), eqButClock s t →
      (∀ i ∈ instrs, i.isFFI = false) → noFFIFuns s.functions →
      blockRel (execBlockLoop M fuel s instrs labels idx)
        (execBlockLoop M fuel t instrs labels idx)) := by
  intro fuel
  induction fuel with
  | zero =>
    constructor
    · intro s t i h hFFI hfuns
      cases i
      case call r fid args =>
        obtain ⟨hg, hf, hcs, hctx, ho, hm, hstdin⟩ := h
        rw [execInstr_call_zero, execInstr_call_zero, hcs, hm, hf]
        exact instrRel_refl _
      all_goals
        exact execInstr_clock_noncall M 0 s t _ h hFFI
          (fun a b c hne => Instruction.noConfusion hne)
    · intro s t instrs labels idx h hbody hfuns
      rw [execBlockLoop_zero, execBlockLoop_zero]
      exact trivial
  | succ fuel ih =>
    obtain ⟨ihInstr, ihLoop⟩ := ih
    constructor
    · intro s t i h hFFI hfuns
      cases i
      case call r fid args =>
        obtain ⟨hg, hf, hcs, hctx, ho, hm, hstdin⟩ := h
        have hres : resolve M s = resolve M t :=
          funext (resolve_congr M ⟨hg, hf, hcs, hctx, ho, hm, hstdin⟩)
        rw [execInstr_call_succ, execInstr_call_succ, hres, hg, hf, hcs, hctx,
          ho, hm, hstdin]
        by_cases hov : t.contextStack.length ≥ t.maxStackDepth
        · rw [if_pos hov, if_pos hov]; exact rfl
        · rw [if_neg hov, if_neg hov]
          split
          · exact rfl
          · rename_i func hfn
            have hb := ihLoop
              { t with
                context := { Context.init M.F with args := args.map (resolve M t) },
                contextStack := t.context :: t.contextStack, clock := s.clock }
              { t with
                context := { Context.init M.F with args := args.map (resolve M t) },
                contextStack := t.context :: t.contextStack }
              func.body (labelsOf func.body) 0
              ⟨rfl, rfl, rfl, rfl, rfl, rfl, rfl⟩
              (hfuns fid func (by rw [hf]; exact hfn))
              (hf ▸ hfuns)
            split
            · rename_i hb1
              rw [hb1] at hb
              split
              · exact trivial
              · rename_i e2 hb2; rw [hb2] at hb; exact hb.elim
              · rename_i t2 hb2; rw [hb2] at hb; exact hb.elim
            · rename_i e1 hb1
              rw [hb1] at hb
              split
              · rename_i hb2; rw [hb2] at hb; exact hb.elim
              · rename_i e2 hb2; rw [hb2] at hb; exact hb
              · rename_i t2 hb2; rw [hb2] at hb; exact hb.elim
            · rename_i s2 hb1
              rw [hb1] at hb
              split
              · rename_i hb2; rw [hb2] at hb; exact hb.elim
              · rename_i e2 hb2; rw [hb2] at hb; exact hb.elim
              · rename_i t2 hb2
                rw [hb2] at hb
                obtain ⟨k1, k2, k3, k4, k5, k6, k7⟩ := hb
                rw [k3, k4]
                refine ⟨assign_congr M ?_ r _, rfl, rfl⟩
                exact ⟨k1, k2, rfl, rfl, k5, k6, k7⟩
      all_goals
        exact execInstr_clock_noncall M (fuel + 1) s t _ h hFFI
          (fun a b c hne => Instruction.noConfusion hne)
    · intro s t instrs labels idx h hbody hfuns
      obtain ⟨hg, hf, hcs, hctx, ho, hm, hstdin⟩ := h
      rw [execBlockLoop_succ, execBlockLoop_succ]
      by_cases hlt : idx < instrs.length
      · rw [if_pos hlt, if_pos hlt, hctx]
        by_cases hret : t.context.returned = true
        · rw [if_pos hret, if_pos hret]
          exact ⟨hg, hf, hcs, hctx, ho, hm, hstdin⟩
        · rw [if_neg hret, if_neg hret]
          have hFFIi : (instrs.getD idx Instruction.empty).isFFI = false :=
            getD_noFFI instrs idx hbody
          have hir := ihInstr s t (instrs.getD idx .empty)
            ⟨hg, hf, hcs, hctx, ho, hm, hstdin⟩ hFFIi hfuns
          cases hi1 : execInstr M fuel s (instrs.getD idx .empty) with
          | none =>
            rw [hi1] at hir
            cases hi2 : execInstr M fuel t (instrs.getD idx .empty) with
            | none => exact trivial
            | some r2 =>
              rw [hi2] at hir
              rcases r2 with e2 | ⟨t1, b2, jl2⟩ <;> exact hir.elim
          | some r1 =>
            rw [hi1] at hir
            rcases r1 with e1 | ⟨s1, b1, jl1⟩
            · cases hi2 : execInstr M fuel t (instrs.getD idx .empty) with
              | none => rw [hi2] at hir; exact hir.elim
              | some r2 =>
                rw [hi2] at hir
                rcases r2 with e2 | ⟨t1, b2, jl2⟩
                · exact hir
                · exact hir.elim
            · cases hi2 : execInstr M fuel t (instrs.getD idx .empty) with
              | none => rw [hi2] at hir; exact hir.elim
              | some r2 =>
                rw [hi2] at hir
                rcases r2 with e2 | ⟨t1, b2, jl2⟩
                · exact hir.elim
                · obtain ⟨hst1, rfl, rfl⟩ := hir
                  have hfr := (exec_framePres M fuel).1 s (instrs.getD idx .empty)
                    (s1, b1, jl1) hi1
                  have hfuns1 : noFFIFuns s1.functions := by
                    rw [hfr.2.1]; exact hfuns
                  simp only
                  cases b1 with
                  | false =>
                    simp only [Bool.false_eq_true, if_false]
                    exact hst1
                  | true =>
                    simp only [if_true]
                    cases jl1 with
                    | none => exact ihLoop s1 t1 instrs labels (idx + 1) hst1 hbody hfuns1
                    | some l =>
                      simp only
                      cases hlab : alist.get labels l with
                      | none => exact ihLoop s1 t1 instrs labels (idx + 1) hst1 hbody hfuns1
                      | some pos => exact ihLoop s1 t1 instrs labels pos hst1 hbody hfuns1
      · rw [if_neg hlt, if_neg hlt]
        exact ⟨hg, hf, hcs, hctx, ho, hm, hstdin⟩

theorem get_foldl_funcs (fs : List Function) :
    ∀ (l0 : List (Int × Function)) (fid : Int) (f : Function),
      alist.get (fs.foldl (fun m g => alist.insert m g.id g) l0) fid = some f →
      f ∈ fs ∨ alist.get l0 fid = some f := by
  induction fs with
  | nil => intro l0 fid f h; exact .inr h
  | cons g gs ih =>
    intro l0 fid f h
    rcases ih _ fid f h with hmem | hget
    · exact .inl (List.mem_cons_of_mem g hmem)
    · rw [alist.get_insert] at hget
      by_cases hk : fid = g.id
      · rw [if_pos hk] at hget
        injection hget with h2
        exact .inl (by rw [← h2]; exact List.mem_cons_self g gs)
      · rw [if_neg hk] at hget
        exact .inr hget

/-- The function table `Interpreter::run` builds is FFI-free whenever every
parsed function body is. -/
theorem noFFIFuns_of_funcs (fs : List Function)
    (h : ∀ f ∈ fs, ∀ i ∈ f.body, i.isFFI = false) :
    noFFIFuns (fs.foldl (fun m g => alist.insert m g.id g) []) := by
  intro fid f hget
  rcases get_foldl_funcs fs [] fid f hget with hmem | hbad
  · exact h f hmem
  · exact Option.noConfusion hbad

theorem runTail_congr (M : FloatModel) (fuel : Nat) (s0 t0 : InterpState M.F)
    (instrs : List Instruction) (h : eqButClock s0 t0)
    (h1 : ∀ i ∈ instrs, i.isFFI = false) (hfuns : noFFIFuns s0.functions) :
    (match execBlock M fuel s0 instrs with
     | none => none
     | some (.error e) => some (.error e)
     | some (.ok s) => some (.ok s.output) :
     Option (Except InterpreterError (List String))) =
    (match execBlock M fuel t0 instrs with
     | none => none
     | some (.error e) => some (.error e)
     | some (.ok s) => some (.ok s.output)) := by
  have hrel := (exec_clock_congr M fuel).2 s0 t0 instrs (labelsOf instrs) 0 h h1 hfuns
  unfold execBlock
  cases hb1 : execBlockLoop M fuel s0 instrs (labelsOf instrs) 0 with
  | none =>
    rw [hb1] at hrel
    cases hb2 : execBlockLoop M fuel t0 instrs (labelsOf instrs) 0 with
    | none => rfl
    | some r2 =>
      rw [hb2] at hrel
      rcases r2 with e2 | t2 <;> exact hrel.elim
  | some r1 =>
    rw [hb1] at hrel
    cases hb2 : execBlockLoop M fuel t0 instrs (labelsOf instrs) 0 with
    | none =>
      rcases r1 with e1 | s2 <;> (rw [hb2] at hrel; exact hrel.elim)
    | some r2 =>
      rw [hb2] at hrel
      rcases r1 with e1 | s2 <;> rcases r2 with e2 | t2
      · rw [hrel]
      · exact hrel.elim
      · exact hrel.elim
      · obtain ⟨-, -, -, -, ho, -, -⟩ := hrel
        show some (Except.ok s2.output) = some (Except.ok t2.output)
        rw [ho]

/-- C6, counterexample: two `Interpreter::run` executions of the same
program with the same (empty) argument list and stdin differ when the
`randint` builtin reads different `SystemTime` values: with a clock
reading of 0 ns the program prints `0`, with 5 ns it prints `5`. -/
theorem run_randint_clock_dependent :
    Interpreter.run unitFloat 10 1000 "R g0 \"randint\" 0 9\n. g0" [] [] [0] =
      some (.ok ["0"]) ∧
    Interpreter.run unitFloat 10 1000 "R g0 \"randint\" 0 9\n. g0" [] [] [5] =
      some (.ok ["5"]) ∧
    Interpreter.run unitFloat 10 1000 "R g0 \"randint\" 0 9\n. g0" [] [] [0] ≠
      Interpreter.run unitFloat 10 1000 "R g0 \"randint\" 0 9\n. g0" [] [] [5] := by
  refine ⟨rfl, rfl, fun hcontra => ?_⟩
  have h2 : (some (.ok ["0"]) : Option (Except InterpreterError (List String))) =
      some (.ok ["5"]) := hcontra
  injection h2 with h3
  injection h3 with h4
  injection h4 with h5 h6
  exact absurd h5 (by decide)

/-- C6 (amended): the `run` function is deterministic up to the system
clock.  For a program whose parsed top-level instructions and function
bodies contain no `R`/`P` (RustFFI) instruction — the only way to reach
`randint`, the one builtin that reads `SystemTime` — the entire result of
`Interpreter::run`, including the output sequence, is independent of the
clock stream; two runs on identical code, arguments and stdin therefore
produce identical output sequences. -/
theorem run_clock_independent_without_ffi (M : FloatModel)
    (fuel maxStackDepth : Nat) (code : String) (args stdin : List String)
    (c1 c2 : List Int) (instrs : List Instruction) (funcs : List Function)
    (hp : Parser.parse code = .ok (instrs, funcs))
    (h1 : ∀ i ∈ instrs, i.isFFI = false)
    (h2 : ∀ f ∈ funcs, ∀ i ∈ f.body, i.isFFI = false) :
    Interpreter.run M fuel maxStackDepth code args stdin c1 =
    Interpreter.run M fuel maxStackDepth code args stdin c2 := by
  unfold Interpreter.run
  rw [hp]
  exact runTail_congr M fuel _ _ instrs ⟨rfl, rfl, rfl, rfl, rfl, rfl, rfl⟩ h1
    (noFFIFuns_of_funcs funcs h2)

/-- Witness for the amended C6 theorem: an FFI-free two-instruction
program runs identically under clocks `[0]` and `[7]`. -/
theorem run_clock_independent_without_ffi_witness :
    Interpreter.run unitFloat 10 1000 "= g0 1\n. g0" [] [] [0] =
    Interpreter.run unitFloat 10 1000 "= g0 1\n. g0" [] [] [7] :=
  run_clock_independent_without_ffi unitFloat 10 1000 "= g0 1\n. g0" [] [] [0] [7]
    [.assign "g0" "1", .output "g0"] [] rfl (by decide) (by decide)

/-! ## Claim C2: the stack-depth boundary

The canonical call chain: function `0` takes one argument `a0` and calls
itself with `a0 - 1` until `a0 < 2`, so invoking it with argument `d ≥ 1`
nests exactly `d` function calls (the innermost runs with `d` saved
contexts on the stack).  `execute_instruction`'s `Call` arm errors with
`StackOverflow` iff `context_stack.len() >= max_stack_depth` before the
push, so the chain of depth `d = max_stack_depth` succeeds and depth
`max_stack_depth + 1` fails. -/

def chainBody : List Instruction :=
  [.lt "v1" "a0" "2", .condJump "v1" 9, .sub "v2" "a0" "1",
   .call "v3" 0 ["v2"], .label 9, .ret "0"]

def chainFun : Function :=
  { id := 0, argCount := 1, body := chainBody }

def chainTable : List (Int × Function) :=
  [(0, chainFun)]

def chainMain : List Instruction :=
  [.call "g0" 0 ["g101"]]

/-- The interpreter state at the start of `execute_block` on the chain
program's top level: global `g101` holds the requested depth `d`, the
stack is empty and `max_stack_depth` is configured to `m`. -/
def chainState (M : FloatModel) (m d : Nat) : InterpState M.F :=
  { globalVars := [(101, Value.integer (d : Int))], functions := chainTable,
    contextStack := [], context := Context.init M.F, output := [],
    maxStackDepth := m, stdin := [], clock := [] }

theorem chainBody_0 :
    chainBody.getD 0 Instruction.empty = Instruction.lt "v1" "a0" "2" := rfl

theorem chainBody_1 :
    chainBody.getD 1 Instruction.empty = Instruction.condJump "v1" 9 := rfl

theorem chainBody_2 :
    chainBody.getD 2 Instruction.empty = Instruction.sub "v2" "a0" "1" := rfl

theorem chainBody_3 :
    chainBody.getD 3 Instruction.empty = Instruction.call "v3" 0 ["v2"] := rfl

theorem chainBody_4 :
    chainBody.getD 4 Instruction.empty = Instruction.label 9 := rfl

theorem chainBody_5 :
    chainBody.getD 5 Instruction.empty = Instruction.ret "0" := rfl

theorem chainMain_0 :
    chainMain.getD 0 Instruction.empty = Instruction.call "g0" 0 ["g101"] := rfl

theorem chainTable_get : alist.get chainTable 0 = some chainFun := rfl

theorem chainFun_body : chainFun.body = chainBody := rfl

theorem chainLabels_9 : alist.get (labelsOf chainBody) 9 = some 4 := rfl

/-- One `execute_block` loop iteration: a successful instruction that
neither jumps nor stops advances to the next index. -/
theorem execBlockLoop_step (M : FloatModel) (fuel : Nat)
    (s s' : InterpState M.F) (instrs : List Instruction)
    (labels : List (Int × Nat)) (idx : Nat)
    (hidx : idx < instrs.length) (hret : s.context.returned = false)
    (hinstr : execInstr M fuel s (instrs.getD idx .empty) =
      some (.ok (s', true, none))) :
    execBlockLoop M (fuel + 1) s instrs labels idx =
    execBlockLoop M fuel s' instrs labels (idx + 1) := by
  rw [execBlockLoop_succ, if_pos hidx, hret, hinstr]
  rfl

/-- One loop iteration that jumps to a defined label. -/
theorem execBlockLoop_step_jump (M : FloatModel) (fuel : Nat)
    (s s' : InterpState M.F) (instrs : List Instruction)
    (labels : List (Int × Nat)) (idx : Nat) (l : Int) (pos : Nat)
    (hidx : idx < instrs.length) (hret : s.context.returned = false)
    (hinstr : execInstr M fuel s (instrs.getD idx .empty) =
      some (.ok (s', true, some l)))
    (hlab : alist.get labels l = some pos) :
    execBlockLoop M (fuel + 1) s instrs labels idx =
    execBlockLoop M fuel s' instrs labels pos := by
  rw [execBlockLoop_succ, if_pos hidx, hret, hinstr]
  simp only [hlab]
  rfl

/-- One loop iteration whose instruction stops the block (a return). -/
theorem execBlockLoop_step_stop (M : FloatModel) (fuel : Nat)
    (s s' : InterpState M.F) (instrs : List Instruction)
    (labels : List (Int × Nat)) (idx : Nat) (jl : Option Int)
    (hidx : idx < instrs.length) (hret : s.context.returned = false)
    (hinstr : execInstr M fuel s (instrs.getD idx .empty) =
      some (.ok (s', false, jl))) :
    execBlockLoop M (fuel + 1) s instrs labels idx = some (.ok s') := by
  rw [execBlockLoop_succ, if_pos hidx, hret, hinstr]
  rfl

/-- One loop iteration whose instruction fails. -/
theorem execBlockLoop_step_err (M : FloatModel) (fuel : Nat)
    (s : InterpState M.F) (instrs : List Instruction)
    (labels : List (Int × Nat)) (idx : Nat) (e : InterpreterError)
    (hidx : idx < instrs.length) (hret : s.context.returned = false)
    (hinstr : execInstr M fuel s (instrs.getD idx .empty) = some (.error e)) :
    execBlockLoop M (fuel + 1) s instrs labels idx = some (.error e) := by
  rw [execBlockLoop_succ, if_pos hidx, hret, hinstr]
  rfl



/-- Running `chainBody` with argument `k ≥ 1` from any state whose saved
stack has length `L` with `L + k ≤ max_stack_depth + 1` terminates
successfully (the chain nests to stack length `L + k - 1` inside the
innermost call without tripping the overflow check). -/
theorem chainBody_ok (M : FloatModel) (m : Nat) : ∀ (k : Nat)
    (G : List (Int × Value M.F)) (CS : List (Context M.F))
    (O SI : List String) (C : List Int), 1 ≤ k → CS.length + k ≤ m + 1 →
    ∃ ctx : Context M.F,
      execBlockLoop M (5 * k - 1)
        {
          globalVars := G,
          functions := chainTable,
          contextStack := CS,
          context := { Context.init M.F with args := [Value.integer (k : Int)] },
          output := O,
          maxStackDepth := m,
          stdin := SI,
          clock := C }
        chainBody (labelsOf chainBody) 0 =
      some (.ok
        {
          globalVars := G,
          functions := chainTable,
          contextStack := CS,
          context := ctx,
          output := O,
          maxStackDepth := m,
          stdin := SI,
          clock := C }) := by
  intro k
  induction k with
  | zero => intro G CS O SI C h1 h2; exact absurd h1 (by omega)
  | succ k ih =>
    intro G CS O SI C hk1 hlen
    by_cases hk0 : k = 0
    · subst hk0
      exact ⟨⟨[(1, Value.integer 1)], [Value.integer 1], Value.integer 0, true⟩, rfl⟩
    · have hk : 1 ≤ k := by omega
      obtain ⟨ctx2, hIH⟩ := ih G
        (⟨[(1, Value.integer 0), (2, Value.integer (k : Int))], [Value.integer ((k + 1 : Nat) : Int)], Value.integer 0, false⟩ :: CS)
        O SI C hk (by rw [List.length_cons]; omega)
      refine ⟨⟨[(1, Value.integer 0), (2, Value.integer (k : Int)), (3, ctx2.returnValue)], [Value.integer ((k + 1 : Nat) : Int)], Value.integer 0, true⟩, ?_⟩
      have h1 : execInstr M (5 * k + 3)
          {
            globalVars := G,
            functions := chainTable,
            contextStack := CS,
            context := { Context.init M.F with args := [Value.integer ((k + 1 : Nat) : Int)] },
            output := O,
            maxStackDepth := m,
            stdin := SI,
            clock := C }
          (chainBody.getD 0 Instruction.empty) =
          some (.ok
            ({
              globalVars := G,
              functions := chainTable,
              contextStack := CS,
              context := ⟨[(1, Value.integer 0)], [Value.integer ((k + 1 : Nat) : Int)], Value.integer 0, false⟩,
              output := O,
              maxStackDepth := m,
              stdin := SI,
              clock := C },
             true, none)) := by
        rw [chainBody_0, execInstr_lt]
        rw [show Value.ltv M
            (resolve M
              {
              globalVars := G,
              functions := chainTable,
              contextStack := CS,
              context := { Context.init M.F with args := [Value.integer ((k + 1 : Nat) : Int)] },
              output := O,
              maxStackDepth := m,
              stdin := SI,
              clock := C } "a0")
            (resolve M
              {
              globalVars := G,
              functions := chainTable,
              contextStack := CS,
              context := { Context.init M.F with args := [Value.integer ((k + 1 : Nat) : Int)] },
              output := O,
              maxStackDepth := m,
              stdin := SI,
              clock := C } "2") =
          Value.integer (if decide (((k + 1 : Nat) : Int) < 2) = true then 1 else 0) from rfl]
        rw [decide_eq_false (by omega : ¬ (((k + 1 : Nat) : Int) < 2))]
        rfl
      have h2 : execInstr M (5 * k + 2)
          {
            globalVars := G,
            functions := chainTable,
            contextStack := CS,
            context := ⟨[(1, Value.integer 0)], [Value.integer ((k + 1 : Nat) : Int)], Value.integer 0, false⟩,
            output := O,
            maxStackDepth := m,
            stdin := SI,
            clock := C }
          (chainBody.getD 1 Instruction.empty) =
          some (.ok
            ({
              globalVars := G,
              functions := chainTable,
              contextStack := CS,
              context := ⟨[(1, Value.integer 0)], [Value.integer ((k + 1 : Nat) : Int)], Value.integer 0, false⟩,
              output := O,
              maxStackDepth := m,
              stdin := SI,
              clock := C },
             true, none)) := by
        rw [chainBody_1, execInstr_condJump]
        rfl
      have h3 : execInstr M (5 * k + 1)
          {
            globalVars := G,
            functions := chainTable,
            contextStack := CS,
            context := ⟨[(1, Value.integer 0)], [Value.integer ((k + 1 : Nat) : Int)], Value.integer 0, false⟩,
            output := O,
            maxStackDepth := m,
            stdin := SI,
            clock := C }
          (chainBody.getD 2 Instruction.empty) =
          some (.ok
            ({
              globalVars := G,
              functions := chainTable,
              contextStack := CS,
              context := ⟨[(1, Value.integer 0), (2, Value.integer (k : Int))], [Value.integer ((k + 1 : Nat) : Int)], Value.integer 0, false⟩,
              output := O,
              maxStackDepth := m,
              stdin := SI,
              clock := C },
             true, none)) := by
        rw [chainBody_2, execInstr_sub]
        rw [show Value.sub M
            (resolve M
              {
              globalVars := G,
              functions := chainTable,
              contextStack := CS,
              context := ⟨[(1, Value.integer 0)], [Value.integer ((k + 1 : Nat) : Int)], Value.integer 0, false⟩,
              output := O,
              maxStackDepth := m,
              stdin := SI,
              clock := C } "a0")
            (resolve M
              {
              globalVars := G,
              functions := chainTable,
              contextStack := CS,
              context := ⟨[(1, Value.integer 0)], [Value.integer ((k + 1 : Nat) : Int)], Value.integer 0, false⟩,
              output := O,
              maxStackDepth := m,
              stdin := SI,
              clock := C } "1") =
          Value.integer (((k + 1 : Nat) : Int) - 1) from rfl]
        rw [(by omega : ((k + 1 : Nat) : Int) - 1 = (k : Int))]
        rfl
      have h4 : execInstr M (5 * k)
          {
            globalVars := G,
            functions := chainTable,
            contextStack := CS,
            context := ⟨[(1, Value.integer 0), (2, Value.integer (k : Int))], [Value.integer ((k + 1 : Nat) : Int)], Value.integer 0, false⟩,
            output := O,
            maxStackDepth := m,
            stdin := SI,
            clock := C }
          (chainBody.getD 3 Instruction.empty) =
          some (.ok
            ({
              globalVars := G,
              functions := chainTable,
              contextStack := CS,
              context := ⟨[(1, Value.integer 0), (2, Value.integer (k : Int)), (3, ctx2.returnValue)], [Value.integer ((k + 1 : Nat) : Int)], Value.integer 0, false⟩,
              output := O,
              maxStackDepth := m,
              stdin := SI,
              clock := C },
             true, none)) := by
        rw [chainBody_3, (by omega : 5 * k = (5 * k - 1) + 1), execInstr_call_succ]
        dsimp only
        rw [if_neg (by omega : ¬ (CS.length ≥ m))]
        rw [chainTable_get]
        simp only
        rw [chainFun_body]
        rw [show List.map (resolve M
            {
              globalVars := G,
              functions := chainTable,
              contextStack := CS,
              context := ⟨[(1, Value.integer 0), (2, Value.integer (k : Int))], [Value.integer ((k + 1 : Nat) : Int)], Value.integer 0, false⟩,
              output := O,
              maxStackDepth := m,
              stdin := SI,
              clock := C }) ["v2"] = [Value.integer (k : Int)] from rfl]
        rw [hIH]
        simp only
        rfl
      have h5 : execInstr M (5 * k - 1)
          {
            globalVars := G,
            functions := chainTable,
            contextStack := CS,
            context := ⟨[(1, Value.integer 0), (2, Value.integer (k : Int)), (3, ctx2.returnValue)], [Value.integer ((k + 1 : Nat) : Int)], Value.integer 0, false⟩,
            output := O,
            maxStackDepth := m,
            stdin := SI,
            clock := C }
          (chainBody.getD 4 Instruction.empty) =
          some (.ok
            ({
              globalVars := G,
              functions := chainTable,
              contextStack := CS,
              context := ⟨[(1, Value.integer 0), (2, Value.integer (k : Int)), (3, ctx2.returnValue)], [Value.integer ((k + 1 : Nat) : Int)], Value.integer 0, false⟩,
              output := O,
              maxStackDepth := m,
              stdin := SI,
              clock := C },
             true, none)) := by
        rw [chainBody_4, execInstr_label]
      have h6 : execInstr M (5 * k - 2)
          {
            globalVars := G,
            functions := chainTable,
            contextStack := CS,
            context := ⟨[(1, Value.integer 0), (2, Value.integer (k : Int)), (3, ctx2.returnValue)], [Value.integer ((k + 1 : Nat) : Int)], Value.integer 0, false⟩,
            output := O,
            maxStackDepth := m,
            stdin := SI,
            clock := C }
          (chainBody.getD 5 Instruction.empty) =
          some (.ok
            ({
              globalVars := G,
              functions := chainTable,
              contextStack := CS,
              context := ⟨[(1, Value.integer 0), (2, Value.integer (k : Int)), (3, ctx2.returnValue)], [Value.integer ((k + 1 : Nat) : Int)], Value.integer 0, true⟩,
              output := O,
              maxStackDepth := m,
              stdin := SI,
              clock := C },
             false, none)) := by
        rw [chainBody_5, execInstr_ret]
        rfl
      rw [(by omega : 5 * (k + 1) - 1 = (5 * k + 3) + 1)]
      rw [execBlockLoop_step M (5 * k + 3) _ _ chainBody (labelsOf chainBody) 0
        (by decide) (by rfl) h1]
      rw [(by omega : 5 * k + 3 = (5 * k + 2) + 1)]
      rw [execBlockLoop_step M (5 * k + 2) _ _ chainBody (labelsOf chainBody) 1
        (by decide) (by rfl) h2]
      rw [(by omega : 5 * k + 2 = (5 * k + 1) + 1)]
      rw [execBlockLoop_step M (5 * k + 1) _ _ chainBody (labelsOf chainBody) 2
        (by decide) (by rfl) h3]
      rw [execBlockLoop_step M (5 * k) _ _ chainBody (labelsOf chainBody) 3
        (by decide) (by rfl) h4]
      rw [(by omega : 5 * k = (5 * k - 1) + 1)]
      rw [execBlockLoop_step M (5 * k - 1) _ _ chainBody (labelsOf chainBody) 4
        (by decide) (by rfl) h5]
      rw [(by omega : 5 * k - 1 = (5 * k - 2) + 1)]
      rw [execBlockLoop_step_stop M (5 * k - 2) _ _ chainBody (labelsOf chainBody) 5
        none (by decide) (by rfl) h6]

/-- Running `chainBody` with argument `k ≥ 2` from a state whose saved
stack has length `L` with `L + k = max_stack_depth + 2` (and `L` itself
still within bounds) fails: the chain recurses until the overflow check
`context_stack.len() >= max_stack_depth` fires, and `StackOverflow`
propagates out. -/
theorem chainBody_err (M : FloatModel) (m : Nat) : ∀ (k : Nat)
    (G : List (Int × Value M.F)) (CS : List (Context M.F))
    (O SI : List String) (C : List Int), 2 ≤ k → CS.length + k = m + 2 →
    CS.length ≤ m →
    execBlockLoop M (5 * k - 6)
      {
        globalVars := G,
        functions := chainTable,
        contextStack := CS,
        context := { Context.init M.F with args := [Value.integer (k : Int)] },
        output := O,
        maxStackDepth := m,
        stdin := SI,
        clock := C }
      chainBody (labelsOf chainBody) 0 =
    some (.error .stackOverflow) := by
  intro k
  induction k with
  | zero => intro G CS O SI C h1 h2 h3; exact absurd h1 (by omega)
  | succ k ih =>
    intro G CS O SI C hk1 hlen hbound
    by_cases hm : CS.length = m
    · have hk1eq : k = 1 := by omega
      subst hk1eq
      have h1 : execInstr M 3
          {
            globalVars := G,
            functions := chainTable,
            contextStack := CS,
            context := { Context.init M.F with args := [Value.integer ((1 + 1 : Nat) : Int)] },
            output := O,
            maxStackDepth := m,
            stdin := SI,
            clock := C }
          (chainBody.getD 0 Instruction.empty) =
          some (.ok
            ({
              globalVars := G,
              functions := chainTable,
              contextStack := CS,
              context := ⟨[(1, Value.integer 0)], [Value.integer ((1 + 1 : Nat) : Int)], Value.integer 0, false⟩,
              output := O,
              maxStackDepth := m,
              stdin := SI,
              clock := C },
             true, none)) := by
        rw [chainBody_0, execInstr_lt]
        rfl
      have h2 : execInstr M 2
          {
            globalVars := G,
            functions := chainTable,
            contextStack := CS,
            context := ⟨[(1, Value.integer 0)], [Value.integer ((1 + 1 : Nat) : Int)], Value.integer 0, false⟩,
            output := O,
            maxStackDepth := m,
            stdin := SI,
            clock := C }
          (chainBody.getD 1 Instruction.empty) =
          some (.ok
            ({
              globalVars := G,
              functions := chainTable,
              contextStack := CS,
              context := ⟨[(1, Value.integer 0)], [Value.integer ((1 + 1 : Nat) : Int)], Value.integer 0, false⟩,
              output := O,
              maxStackDepth := m,
              stdin := SI,
              clock := C },
             true, none)) := by
        rw [chainBody_1, execInstr_condJump]
        rfl
      have h3 : execInstr M 1
          {
            globalVars := G,
            functions := chainTable,
            contextStack := CS,
            context := ⟨[(1, Value.integer 0)], [Value.integer ((1 + 1 : Nat) : Int)], Value.integer 0, false⟩,
            output := O,
            maxStackDepth := m,
            stdin := SI,
            clock := C }
          (chainBody.getD 2 Instruction.empty) =
          some (.ok
            ({
              globalVars := G,
              functions := chainTable,
              contextStack := CS,
              context := ⟨[(1, Value.integer 0), (2, Value.integer 1)], [Value.integer ((1 + 1 : Nat) : Int)], Value.integer 0, false⟩,
              output := O,
              maxStackDepth := m,
              stdin := SI,
              clock := C },
             true, none)) := by
        rw [chainBody_2, execInstr_sub]
        rfl
      have h4 : execInstr M 0
          {
            globalVars := G,
            functions := chainTable,
            contextStack := CS,
            context := ⟨[(1, Value.integer 0), (2, Value.integer 1)], [Value.integer ((1 + 1 : Nat) : Int)], Value.integer 0, false⟩,
            output := O,
            maxStackDepth := m,
            stdin := SI,
            clock := C }
          (chainBody.getD 3 Instruction.empty) =
          some (.error .stackOverflow) := by
        rw [chainBody_3, execInstr_call_zero]
        dsimp only
        rw [if_pos (by omega : CS.length ≥ m)]
      rw [(by omega : 5 * (1 + 1) - 6 = 3 + 1)]
      rw [execBlockLoop_step M 3 _ _ chainBody (labelsOf chainBody) 0
        (by decide) (by rfl) h1]
      rw [(by omega : (3 : Nat) = 2 + 1)]
      rw [execBlockLoop_step M 2 _ _ chainBody (labelsOf chainBody) 1
        (by decide) (by rfl) h2]
      rw [(by omega : (2 : Nat) = 1 + 1)]
      rw [execBlockLoop_step M 1 _ _ chainBody (labelsOf chainBody) 2
        (by decide) (by rfl) h3]
      rw [(by omega : (1 : Nat) = 0 + 1)]
      rw [execBlockLoop_step_err M 0 _ chainBody (labelsOf chainBody) 3
        InterpreterError.stackOverflow (by decide) (by rfl) h4]
    · have hk : 2 ≤ k := by omega
      have hIH := ih G
        (⟨[(1, Value.integer 0), (2, Value.integer (k : Int))], [Value.integer ((k + 1 : Nat) : Int)], Value.integer 0, false⟩ :: CS)
        O SI C hk (by rw [List.length_cons]; omega) (by rw [List.length_cons]; omega)
      have h1 : execInstr M (5 * k - 2)
          {
            globalVars := G,
            functions := chainTable,
            contextStack := CS,
            context := { Context.init M.F with args := [Value.integer ((k + 1 : Nat) : Int)] },
            output := O,
            maxStackDepth := m,
            stdin := SI,
            clock := C }
          (chainBody.getD 0 Instruction.empty) =
          some (.ok
            ({
              globalVars := G,
              functions := chainTable,
              contextStack := CS,
              context := ⟨[(1, Value.integer 0)], [Value.integer ((k + 1 : Nat) : Int)], Value.integer 0, false⟩,
              output := O,
              maxStackDepth := m,
              stdin := SI,
              clock := C },
             true, none)) := by
        rw [chainBody_0, execInstr_lt]
        rw [show Value.ltv M
            (resolve M
              {
              globalVars := G,
              functions := chainTable,
              contextStack := CS,
              context := { Context.init M.F with args := [Value.integer ((k + 1 : Nat) : Int)] },
              output := O,
              maxStackDepth := m,
              stdin := SI,
              clock := C } "a0")
            (resolve M
              {
              globalVars := G,
              functions := chainTable,
              contextStack := CS,
              context := { Context.init M.F with args := [Value.integer ((k + 1 : Nat) : Int)] },
              output := O,
              maxStackDepth := m,
              stdin := SI,
              clock := C } "2") =
          Value.integer (if decide (((k + 1 : Nat) : Int) < 2) = true then 1 else 0) from rfl]
        rw [decide_eq_false (by omega : ¬ (((k + 1 : Nat) : Int) < 2))]
        rfl
      have h2 : execInstr M (5 * k - 3)
          {
            globalVars := G,
            functions := chainTable,
            contextStack := CS,
            context := ⟨[(1, Value.integer 0)], [Value.integer ((k + 1 : Nat) : Int)], Value.integer 0, false⟩,
            output := O,
            maxStackDepth := m,
            stdin := SI,
            clock := C }
          (chainBody.getD 1 Instruction.empty) =
          some (.ok
            ({
              globalVars := G,
              functions := chainTable,
              contextStack := CS,
              context := ⟨[(1, Value.integer 0)], [Value.integer ((k + 1 : Nat) : Int)], Value.integer 0, false⟩,
              output := O,
              maxStackDepth := m,
              stdin := SI,
              clock := C },
             true, none)) := by
        rw [chainBody_1, execInstr_condJump]
        rfl
      have h3 : execInstr M (5 * k - 4)
          {
            globalVars := G,
            functions := chainTable,
            contextStack := CS,
            context := ⟨[(1, Value.integer 0)], [Value.integer ((k + 1 : Nat) : Int)], Value.integer 0, false⟩,
            output := O,
            maxStackDepth := m,
            stdin := SI,
            clock := C }
          (chainBody.getD 2 Instruction.empty) =
          some (.ok
            ({
              globalVars := G,
              functions := chainTable,
              contextStack := CS,
              context := ⟨[(1, Value.integer 0), (2, Value.integer (k : Int))], [Value.integer ((k + 1 : Nat) : Int)], Value.integer 0, false⟩,
              output := O,
              maxStackDepth := m,
              stdin := SI,
              clock := C },
             true, none)) := by
        rw [chainBody_2, execInstr_sub]
        rw [show Value.sub M
            (resolve M
              {
              globalVars := G,
              functions := chainTable,
              contextStack := CS,
              context := ⟨[(1, Value.integer 0)], [Value.integer ((k + 1 : Nat) : Int)], Value.integer 0, false⟩,
              output := O,
              maxStackDepth := m,
              stdin := SI,
              clock := C } "a0")
            (resolve M
              {
              globalVars := G,
              functions := chainTable,
              contextStack := CS,
              context := ⟨[(1, Value.integer 0)], [Value.integer ((k + 1 : Nat) : Int)], Value.integer 0, false⟩,
              output := O,
              maxStackDepth := m,
              stdin := SI,
              clock := C } "1") =
          Value.integer (((k + 1 : Nat) : Int) - 1) from rfl]
        rw [(by omega : ((k + 1 : Nat) : Int) - 1 = (k : Int))]
        rfl
      have h4 : execInstr M (5 * k - 5)
          {
            globalVars := G,
            functions := chainTable,
            contextStack := CS,
            context := ⟨[(1, Value.integer 0), (2, Value.integer (k : Int))], [Value.integer ((k + 1 : Nat) : Int)], Value.integer 0, false⟩,
            output := O,
            maxStackDepth := m,
            stdin := SI,
            clock := C }
          (chainBody.getD 3 Instruction.empty) =
          some (.error .stackOverflow) := by
        rw [chainBody_3, (by omega : 5 * k - 5 = (5 * k - 6) + 1), execInstr_call_succ]
        dsimp only
        rw [if_neg (by omega : ¬ (CS.length ≥ m))]
        rw [chainTable_get]
        simp only
        rw [chainFun_body]
        rw [show List.map (resolve M
            {
              globalVars := G,
              functions := chainTable,
              contextStack := CS,
              context := ⟨[(1, Value.integer 0), (2, Value.integer (k : Int))], [Value.integer ((k + 1 : Nat) : Int)], Value.integer 0, false⟩,
              output := O,
              maxStackDepth := m,
              stdin := SI,
              clock := C }) ["v2"] = [Value.integer (k : Int)] from rfl]
        rw [hIH]
      rw [(by omega : 5 * (k + 1) - 6 = (5 * k - 2) + 1)]
      rw [execBlockLoop_step M (5 * k - 2) _ _ chainBody (labelsOf chainBody) 0
        (by decide) (by rfl) h1]
      rw [(by omega : 5 * k - 2 = (5 * k - 3) + 1)]
      rw [execBlockLoop_step M (5 * k - 3) _ _ chainBody (labelsOf chainBody) 1
        (by decide) (by rfl) h2]
      rw [(by omega : 5 * k - 3 = (5 * k - 4) + 1)]
      rw [execBlockLoop_step M (5 * k - 4) _ _ chainBody (labelsOf chainBody) 2
        (by decide) (by rfl) h3]
      rw [(by omega : 5 * k - 4 = (5 * k - 5) + 1)]
      rw [execBlockLoop_step_err M (5 * k - 5) _ chainBody (labelsOf chainBody) 3
        InterpreterError.stackOverflow (by decide) (by rfl) h4]

/-- C2: call depth is bounded by the configured `max_stack_depth`, with
the boundary exactly where the spec puts it.  Running the canonical
call chain of nesting depth `d` (the `chainState`/`chainMain` program,
where global `g101` holds `d`) under a configured maximum `m`:
a chain whose depth satisfies `d ≤ m` — in particular depth exactly
`m` — executes successfully, and a chain of depth `m + 1` fails with
`StackOverflow`. -/
theorem stack_depth_boundary (M : FloatModel) (m d : Nat) (hd : 1 ≤ d) :
    (d ≤ m → ∃ s' : InterpState M.F,
      execBlock M (5 * d + 1) (chainState M m d) chainMain = some (.ok s')) ∧
    (d = m + 1 → ∃ fuel : Nat,
      execBlock M fuel (chainState M m d) chainMain =
        some (.error .stackOverflow)) := by
  constructor
  · intro hdm
    obtain ⟨ctx2, hIH⟩ := chainBody_ok M m d [(101, Value.integer (d : Int))]
      [Context.init M.F] [] [] [] hd (by rw [List.length_singleton]; omega)
    refine ⟨{ globalVars := [(101, Value.integer (d : Int)), (0, ctx2.returnValue)],
               functions := chainTable,
               contextStack := [],
               context := Context.init M.F,
               output := [],
               maxStackDepth := m,
               stdin := [],
               clock := [] }, ?_⟩
    have hcall : execInstr M (5 * d) (chainState M m d)
        (chainMain.getD 0 Instruction.empty) =
        some (.ok
          ({ globalVars := [(101, Value.integer (d : Int)), (0, ctx2.returnValue)],
              functions := chainTable,
              contextStack := [],
              context := Context.init M.F,
              output := [],
              maxStackDepth := m,
              stdin := [],
              clock := [] }, true, none)) := by
      rw [chainMain_0, (by omega : 5 * d = (5 * d - 1) + 1), execInstr_call_succ]
      dsimp only [chainState]
      rw [if_neg (by simp only [List.length_nil]; omega :
        ¬ (List.length ([] : List (Context M.F)) ≥ m))]
      rw [chainTable_get]
      simp only
      rw [chainFun_body]
      rw [show List.map (resolve M
          {
              globalVars := [(101, Value.integer (d : Int))],
              functions := chainTable,
              contextStack := [],
              context := Context.init M.F,
              output := [],
              maxStackDepth := m,
              stdin := [],
              clock := [] }) ["g101"] = [Value.integer (d : Int)] from rfl]
      rw [hIH]
      simp only
      rfl
    show execBlockLoop M (5 * d + 1) (chainState M m d) chainMain
      (labelsOf chainMain) 0 = _
    rw [execBlockLoop_step M (5 * d) _ _ chainMain (labelsOf chainMain) 0
      (by decide) (by rfl) hcall]
    rw [(by omega : 5 * d = (5 * d - 1) + 1)]
    rw [execBlockLoop_succ]
    rw [if_neg (by decide : ¬ ((0 + 1 : Nat) < chainMain.length))]
  · intro hde
    by_cases hm0 : m = 0
    · refine ⟨1, ?_⟩
      have hcall : execInstr M 0 (chainState M m d)
          (chainMain.getD 0 Instruction.empty) =
          some (.error .stackOverflow) := by
        rw [chainMain_0, execInstr_call_zero]
        dsimp only [chainState]
        rw [if_pos (by simp only [List.length_nil]; omega :
          List.length ([] : List (Context M.F)) ≥ m)]
      show execBlockLoop M (0 + 1) (chainState M m d) chainMain
        (labelsOf chainMain) 0 = _
      rw [execBlockLoop_step_err M 0 _ chainMain (labelsOf chainMain) 0
        InterpreterError.stackOverflow (by decide) (by rfl) hcall]
    · refine ⟨5 * d - 4, ?_⟩
      have hIH := chainBody_err M m d [(101, Value.integer (d : Int))]
        [Context.init M.F] [] [] [] (by omega)
        (by rw [List.length_singleton]; omega)
        (by rw [List.length_singleton]; omega)
      have hcall : execInstr M (5 * d - 5) (chainState M m d)
          (chainMain.getD 0 Instruction.empty) =
          some (.error .stackOverflow) := by
        rw [chainMain_0, (by omega : 5 * d - 5 = (5 * d - 6) + 1),
          execInstr_call_succ]
        dsimp only [chainState]
        rw [if_neg (by simp only [List.length_nil]; omega :
          ¬ (List.length ([] : List (Context M.F)) ≥ m))]
        rw [chainTable_get]
        simp only
        rw [chainFun_body]
        rw [show List.map (resolve M
            {
              globalVars := [(101, Value.integer (d : Int))],
              functions := chainTable,
              contextStack := [],
              context := Context.init M.F,
              output := [],
              maxStackDepth := m,
              stdin := [],
              clock := [] }) ["g101"] = [Value.integer (d : Int)] from rfl]
        rw [hIH]
      rw [(by omega : 5 * d - 4 = (5 * d - 5) + 1)]
      show execBlockLoop M ((5 * d - 5) + 1) (chainState M m d) chainMain
        (labelsOf chainMain) 0 = _
      rw [execBlockLoop_step_err M (5 * d - 5) _ chainMain (labelsOf chainMain) 0
        InterpreterError.stackOverflow (by decide) (by rfl) hcall]

/-- Witness for C2 at `max_stack_depth = 2`: the depth-2 chain (equal to
the maximum) succeeds. -/
theorem stack_depth_boundary_witness :
    ∃ s' : InterpState Unit,
      execBlock unitFloat (5 * 2 + 1) (chainState unitFloat 2 2) chainMain =
        some (.ok s') :=
  (stack_depth_boundary unitFloat 2 2 (by decide)).1 (by decide)
